import Mathlib

/-!
Verification of the comfy-dev-cli publish/merge engine and status reader.

Shallow embedding of:
- `src/cli/commands/teststatus.py` (status reader, success derivation, freshness)
- `src/cli/commands/show.py` (result-set locator, platform enumeration)
- `src/cli/commands/publish.py` (publish merger)
-/

set_option maxHeartbeats 1000000

namespace ComfyDev

/-! ## Platform enumeration (show.py, PLATFORM_IDS) -/

def PLATFORM_IDS : List String :=
  ["linux-cpu", "linux-gpu",
   "windows-cpu", "windows-gpu",
   "windows-portable-cpu", "windows-portable-gpu",
   "macos-cpu", "macos-gpu"]

/-! ## results.json data model (fields consumed by teststatus.py) -/

/-- The `summary` object of a results.json document.  A field holds `none`
when the key is absent from the JSON object. -/
structure Summary where
  total : Option Int
  failed : Option Int
deriving DecidableEq

/-- The decoded results.json document, restricted to the fields the status
reader consumes (`teststatus.py`, `_fetch_gh_pages_status`). -/
structure ResultsDoc where
  success : Option Bool
  summary : Option Summary
  commit_hash : Option String
  timestamp : Option String
deriving DecidableEq

/-- Success derivation of `_fetch_gh_pages_status` (teststatus.py lines
144-151): keep an explicit top-level `success`; otherwise, when
`summary.get("total", 0) > 0`, derive `success = (summary.get("failed", 1) == 0)`;
otherwise leave it `None` (unknown). -/
def deriveSuccess (d : ResultsDoc) : Option Bool :=
  match d.success with
  | some b => some b
  | none =>
      let s := d.summary.getD ⟨none, none⟩
      if s.total.getD 0 > 0 then some (decide (s.failed.getD 1 = 0)) else none

/-- The per-platform record built by `_fetch_gh_pages_status`. -/
structure PlatformStatus where
  success : Option Bool
  commit_hash : String
  timestamp : String
deriving DecidableEq

/-! ## Status reader (teststatus.py, `_fetch_gh_pages_status`) -/

/-- Abstract remote-hosting API used by the status reader: list a directory
of a branch on gh-pages, or fetch and decode one platform's results.json.
`none` models a failed remote read (non-zero exit of the API call, decode
error, timeout — all swallowed by the code). -/
structure Remote where
  listDir : String → Option (List String)
  fetchResults : String → String → Option ResultsDoc

/-- Branches checked on gh-pages (teststatus.py, `BRANCHES`). -/
def BRANCHES : List String := ["dev", "main"]

/-- Platform directory names listed under a branch: entries that are
non-empty and do not end in ".html" (teststatus.py lines 120-123).  A failed
listing yields no platforms for the branch (the code `continue`s). -/
def platformDirs (r : Remote) (branch : String) : List String :=
  match r.listDir branch with
  | none => []
  | some names =>
      names.filter (fun n => !(decide (n = "")) && !((".html".toList).isSuffixOf n.toList))

/-- Read one platform's results.json and build its status record
(teststatus.py lines 128-156); `none` when the remote read fails. -/
def readPlatform (r : Remote) (branch pid : String) : Option PlatformStatus :=
  match r.fetchResults branch pid with
  | none => none
  | some d => some ⟨deriveSuccess d, d.commit_hash.getD "", d.timestamp.getD ""⟩

/-- The per-branch mapping platform → status; failed per-platform reads are
skipped (`continue` in the code). -/
def branchStatus (r : Remote) (branch : String) : List (String × PlatformStatus) :=
  (platformDirs r branch).filterMap
    (fun pid => (readPlatform r branch pid).map (fun st => (pid, st)))

/-- `_fetch_gh_pages_status`: branch → (platform → status); a branch with an
empty `branch_status` is omitted (teststatus.py lines 160-161). -/
def fetchGhPagesStatus (r : Remote) : List (String × List (String × PlatformStatus)) :=
  BRANCHES.filterMap (fun branch =>
    let bs := branchStatus r branch
    if bs.isEmpty then none else some (branch, bs))

/-- A remote identical to `r` except that the single read of
`(b0, p0)`'s results.json fails. -/
def failOne (r : Remote) (b0 p0 : String) : Remote :=
  { listDir := r.listDir,
    fetchResults := fun b p => if b = b0 ∧ p = p0 then none else r.fetchResults b p }

/-- First-match association-list lookup (also used by the store model). -/
def lookupA {α : Type} : List (String × α) → String → Option α
  | [], _ => none
  | e :: es, k => if e.1 = k then some e.2 else lookupA es k

/-- Lookup of one (branch, platform) entry in the aggregate result. -/
def lookupStatus (st : List (String × List (String × PlatformStatus)))
    (b p : String) : Option PlatformStatus :=
  match lookupA st b with
  | none => none
  | some l => lookupA l p

/-- Exit code of `show_test_status` (teststatus.py lines 218-284): 1 when no
repos are found under all_repos/, and 0 otherwise — every per-repo failure is
swallowed (lines 244-252) and the table is always printed. -/
def showTestStatusExit (repos : List String) : Int :=
  if repos.isEmpty then 1 else 0

/-! ## Freshness (teststatus.py, `_format_branch` lines 188-203) -/

/-- Modelled from the spec: the Freshness Comparator's three-way
classification `classify(published_commit_hash, local_head)`
(spec section 4.5); the code itself has no such function, only the
two-way rendering below. -/
inductive Freshness
| fresh
| stale
| unknown
deriving DecidableEq

/-- Modelled from the spec: `Unknown` if either hash is empty, `Fresh` on
exact string equality, `Stale` otherwise (spec section 4.5). -/
def classify (published localHead : String) : Freshness :=
  if published = "" ∨ localHead = "" then Freshness.unknown
  else if published = localHead then Freshness.fresh else Freshness.stale

/-- `short = commit[:7] if commit else "?"` (teststatus.py line 190). -/
def shortHash (commit : String) : String :=
  if commit = "" then "?" else commit.take 7

/-- The commit-freshness tag of `_format_branch` (teststatus.py lines
199-203): dim short hash when both hashes are non-empty and exactly equal,
yellow short hash otherwise. -/
def commitTag (commit localHead : String) : String :=
  if ¬ commit = "" ∧ ¬ localHead = "" ∧ commit = localHead then
    "[dim]" ++ shortHash commit ++ "[/dim]"
  else
    "[yellow]" ++ shortHash commit ++ "[/yellow]"

/-! ## ResultSet locator (show.py, `find_latest_log` lines 84-122) -/

/-- One entry of the configured logs root directory. -/
structure Entry where
  name : String
  isDir : Bool
  mtime : Nat
deriving DecidableEq

/-- `repo_name.lower().replace("-", "").replace("_", "")` (show.py line 97),
as a character-list transformation: lowercase, then drop every hyphen and
underscore. -/
def normalizeRepo (s : String) : List Char :=
  ((s.toList.map Char.toLower).filter (fun c => ¬ c = '-')).filter (fun c => ¬ c = '_')

/-- `folder.name.rsplit("-", 1)` when it yields two parts (show.py lines
104-108): split at the last hyphen into (base_name, folder_timestamp);
`none` when the name contains no hyphen. -/
def rsplitDash (s : String) : Option (List Char × List Char) :=
  let rev := s.toList.reverse
  let tsRev := rev.takeWhile (fun c => ¬ c = '-')
  match rev.dropWhile (fun c => ¬ c = '-') with
  | [] => none
  | _ :: baseRev => some (baseRev.reverse, tsRev.reverse)

/-- An entry matches the repo: it is a directory, its name splits as
`{base}-{timestamp}`, and the normalized base equals the normalized repo
name (show.py lines 100-111). -/
def repoMatches (repo : String) (e : Entry) : Bool :=
  e.isDir &&
    match rsplitDash e.name with
    | none => false
    | some bt => decide (normalizeRepo (String.mk bt.1) = normalizeRepo repo)

/-- An entry matches the repo and has exactly the requested timestamp
(show.py lines 112-114). -/
def exactMatch (repo ts : String) (e : Entry) : Bool :=
  e.isDir &&
    match rsplitDash e.name with
    | none => false
    | some bt =>
        decide (normalizeRepo (String.mk bt.1) = normalizeRepo repo) &&
          decide (bt.2 = ts.toList)

/-- Head of the stable descending sort by mtime (show.py lines 121-122):
the first candidate in iteration order whose mtime is maximal. -/
def selectLatest : List Entry → Option Entry
  | [] => none
  | e :: es =>
      match selectLatest es with
      | none => some e
      | some m => if m.mtime > e.mtime then some m else some e

/-- `find_latest_log(repo_name, timestamp)` (show.py lines 84-122): `none`
when the logs root is absent; with a timestamp, the first entry matching it
exactly; without, the most-recently-modified matching entry. -/
def findLatestLog (dirExists : Bool) (entries : List Entry) (repo : String)
    (ts : Option String) : Option Entry :=
  if dirExists then
    match ts with
    | some t => entries.find? (exactMatch repo t)
    | none => selectLatest (entries.filter (repoMatches repo))
  else none

/-! ## Publish merger (publish.py)

The persistent store (the content of the gh-pages worktree) is modelled as
association lists: one platform subtree per (branch, platform) key, one
generated index page per branch, a root index page, the .nojekyll sentinel,
and any further files at the root that are not part of the branch/platform
structure (`extra`, e.g. files inherited from the default branch in the
orphan case).  A platform subtree is split into its primary data (the
results.json plus every non-generated file, as one opaque blob) and its
generated index.html, because the report renderer rewrites only the latter.
Lookups are first-match, and updates prepend, so equality of stores is the
extensional equality of all lookups (`StoreEquiv` below), matching the
byte-for-byte comparison `git status --porcelain` performs. -/

/-- One platform subtree: primary data (results.json and every other
published file) and the generated index.html. -/
structure PlatformTree where
  primary : String
  index : Option String
deriving DecidableEq

/-- One branch folder of the local ResultSet: its name and, for every
recognized platform subdirectory that contains a results.json, the subtree
to copy (publish.py lines 199-210 copy exactly those). -/
structure BranchFolder where
  name : String
  platforms : List (String × PlatformTree)
deriving DecidableEq

/-- The gh-pages worktree content. -/
structure Store where
  plats : List ((String × String) × PlatformTree)
  branchIdx : List (String × String)
  rootIndex : Option String
  nojekyll : Bool
  extra : List (String × String)
deriving DecidableEq

/-- First-match lookup keyed by (branch, platform). -/
def lookupBP : List ((String × String) × PlatformTree) → String → String → Option PlatformTree
  | [], _, _ => none
  | e :: es, b, p => if e.1.1 = b ∧ e.1.2 = p then some e.2 else lookupBP es b p

/-- Platform subtree at `{branch}/{platform}`. -/
def Store.getPlat (s : Store) (b p : String) : Option PlatformTree :=
  lookupBP s.plats b p

/-- Replace the subtree at `{branch}/{platform}` (rmtree + copytree,
publish.py lines 208-210, or the index rewrite of the renderer). -/
def Store.setPlat (s : Store) (b p : String) (t : PlatformTree) : Store :=
  { s with plats := ((b, p), t) :: s.plats }

def Store.getBranchIdx (s : Store) (b : String) : Option String :=
  lookupA s.branchIdx b

def Store.setBranchIdx (s : Store) (b i : String) : Store :=
  { s with branchIdx := (b, i) :: s.branchIdx }

def Store.getExtra (s : Store) (f : String) : Option String :=
  lookupA s.extra f

/-- The external report renderer (comfy-test), consumed as pure functions of
the directory content it reads (spec section 4.2: directory-in,
files-written).  `renderPlatform` may fail (`none`), which the code logs and
tolerates (publish.py lines 217-220). -/
structure Renderers where
  renderPlatform : String → String → Option String
  renderBranchIndex : (String → Option PlatformTree) → String
  renderRootIndex : (String → String → Option PlatformTree) → String

/-- One step of the copy loop (publish.py lines 199-210): when the source
branch folder holds a recognized platform subtree with a results.json,
replace the destination subtree in full. -/
def copyStep (bf : BranchFolder) (s : Store) (pid : String) : Store :=
  match lookupA bf.platforms pid with
  | none => s
  | some t => s.setPlat bf.name pid t

/-- One step of the per-branch render loop (publish.py lines 214-220):
regenerate index.html of every platform of the branch that has a
results.json; a renderer failure leaves the subtree as it was. -/
def renderStep (R : Renderers) (b : String) (s : Store) (pid : String) : Store :=
  match s.getPlat b pid with
  | none => s
  | some t =>
      match R.renderPlatform pid t.primary with
      | none => s
      | some i => s.setPlat b pid { t with index := some i }

/-- Merge one branch folder (publish.py lines 194-224): copy each platform
with results, then — when the report utilities are importable — re-render
each platform report and the branch index. -/
def mergeBranch (hasUtils : Bool) (R : Renderers) (s : Store) (bf : BranchFolder) : Store :=
  let s1 := PLATFORM_IDS.foldl (copyStep bf) s
  if hasUtils then
    let s2 := PLATFORM_IDS.foldl (renderStep R bf.name) s1
    s2.setBranchIdx bf.name (R.renderBranchIndex (fun p => s2.getPlat bf.name p))
  else s1

/-- The full merge pass of `_publish_with_worktree` (publish.py lines
193-232): all branch folders, then the root index, then the .nojekyll
sentinel. -/
def publishMerge (hasUtils : Bool) (R : Renderers) (s : Store)
    (bs : List BranchFolder) : Store :=
  let s1 := bs.foldl (mergeBranch hasUtils R) s
  let s2 :=
    if hasUtils then { s1 with rootIndex := some (R.renderRootIndex (fun b p => s1.getPlat b p)) }
    else s1
  { s2 with nojekyll := true }

/-! ### Extensional store equality (what `git status --porcelain` compares) -/

def Store.platKeys (s : Store) : List (String × String) := s.plats.map (fun e => e.1)
def Store.bKeys (s : Store) : List String := s.branchIdx.map (fun e => e.1)
def Store.eKeys (s : Store) : List String := s.extra.map (fun e => e.1)

/-- Decidable extensional equality of two worktree contents: every file of
either store has the same bytes in both. -/
def storeEqb (s1 s2 : Store) : Bool :=
  (s1.platKeys ++ s2.platKeys).all
      (fun k => decide (s1.getPlat k.1 k.2 = s2.getPlat k.1 k.2)) &&
    (s1.bKeys ++ s2.bKeys).all (fun b => decide (s1.getBranchIdx b = s2.getBranchIdx b)) &&
    decide (s1.rootIndex = s2.rootIndex) &&
    decide (s1.nojekyll = s2.nojekyll) &&
    (s1.eKeys ++ s2.eKeys).all (fun f => decide (s1.getExtra f = s2.getExtra f))

/-- Extensional equality of two worktree contents. -/
def StoreEquiv (s1 s2 : Store) : Prop :=
  (∀ b p, s1.getPlat b p = s2.getPlat b p) ∧
    (∀ b, s1.getBranchIdx b = s2.getBranchIdx b) ∧
    s1.rootIndex = s2.rootIndex ∧
    s1.nojekyll = s2.nojekyll ∧
    (∀ f, s1.getExtra f = s2.getExtra f)

/-! ### The worktree lifecycle of `_publish_with_worktree` -/

/-- The worktree content right after the orphan-branch bootstrap (publish.py
lines 160-191): `git worktree add --detach` materializes the default
branch's HEAD files on disk, `git checkout --orphan gh-pages` switches to an
unborn branch keeping those files, and `git rm -rf --cached .` unstages them
but leaves them in the working tree, so they are still present as plain
files (`defaultFiles`, recorded under `extra`) and will be re-staged by the
later `git add -A`. -/
def orphanInit (defaultFiles : List (String × String)) : Store :=
  { plats := [], branchIdx := [], rootIndex := none, nojekyll := false,
    extra := defaultFiles }

inductive POutcome
| errRepoNotFound
| errDirty (paths : List String)
| errNoResults
| errNoPlatformData
| errWorktree
| errPush
| published
| noChanges
deriving DecidableEq

/-- Observable side effects of a publish run, in order. -/
inductive PubEvent
| fetch
| worktreeAdd
| commit
| pushRemote
deriving DecidableEq

/-- Environment of one `publish_results` invocation: what the repository,
the local logs and the remote look like. -/
structure PubEnv where
  repoFound : Bool
  dirtyPaths : List String
  logFound : Bool
  branches : List BranchFolder
  remoteStore : Option Store
  defaultFiles : List (String × String)
  hasUtils : Bool
  renders : Renderers
  worktreeOk : Bool
  pushOk : Bool

/-- The worktree content before merging: the fetched gh-pages store, or the
orphan-bootstrap content when the remote has no gh-pages branch. -/
def initialWorktree (env : PubEnv) : Store :=
  match env.remoteStore with
  | some s => s
  | none => orphanInit env.defaultFiles

/-- The worktree content after the merge pass. -/
def mergedStore (env : PubEnv) : Store :=
  publishMerge env.hasUtils env.renders (initialWorktree env) env.branches

/-- `git status --porcelain` in the worktree after `git add -A` (publish.py
lines 241-248) is empty exactly when the staged content equals the checked
out gh-pages head.  On the orphan branch the head is unborn and the
worktree always contains at least the freshly touched .nojekyll, so the
diff is never empty there. -/
def stagedClean (env : PubEnv) : Bool :=
  match env.remoteStore with
  | some s0 => storeEqb (mergedStore env) s0
  | none => false

/-- `_publish_with_worktree` (publish.py lines 105-314): fetch, check out
the worktree, merge, and commit/push unless the staged diff is empty.
Returns the outcome, the ordered side effects, and the resulting local
gh-pages content. -/
def publishWithWorktreeM (env : PubEnv) (push : Bool) :
    POutcome × List PubEvent × Store :=
  if env.worktreeOk then
    if stagedClean env then
      (POutcome.noChanges, [PubEvent.fetch, PubEvent.worktreeAdd], initialWorktree env)
    else if push then
      if env.pushOk then
        (POutcome.published,
         [PubEvent.fetch, PubEvent.worktreeAdd, PubEvent.commit, PubEvent.pushRemote],
         mergedStore env)
      else
        (POutcome.errPush,
         [PubEvent.fetch, PubEvent.worktreeAdd, PubEvent.commit, PubEvent.pushRemote],
         mergedStore env)
    else
      (POutcome.published, [PubEvent.fetch, PubEvent.worktreeAdd, PubEvent.commit],
       mergedStore env)
  else (POutcome.errWorktree, [PubEvent.fetch], initialWorktree env)

/-- `publish_results` (publish.py lines 42-102): guard order is find_repo,
dirty-working-tree check, find_latest_log, find_branches, then the worktree
publish.  A guard failure produces no side effect at all. -/
def publishResultsM (env : PubEnv) (force push : Bool) : POutcome × List PubEvent :=
  if env.repoFound = false then (POutcome.errRepoNotFound, [])
  else if ¬ env.dirtyPaths = [] ∧ force = false then (POutcome.errDirty env.dirtyPaths, [])
  else if env.logFound = false then (POutcome.errNoResults, [])
  else if env.branches = [] then (POutcome.errNoPlatformData, [])
  else
    let r := publishWithWorktreeM env push
    (r.1, r.2.1)

/-- Exit code of the publish CLI: 0 on Published or NoChanges, 1 otherwise. -/
def exitCodeM : POutcome → Int
  | POutcome.published => 0
  | POutcome.noChanges => 0
  | _ => 1

/-! ### Spec-level characterization of one branch merge -/

/-- Renderer effect on one platform subtree: replace the index when the
renderer succeeds, keep the subtree on failure. -/
def renderTree (R : Renderers) (pid : String) (t : PlatformTree) : PlatformTree :=
  match R.renderPlatform pid t.primary with
  | none => t
  | some i => { t with index := some i }

/-- Effect of the copy loop on one platform slot: the source subtree when
the branch folder publishes this platform, the previous content otherwise. -/
def copyAt (bf : BranchFolder) (L : Option PlatformTree) (p : String) : Option PlatformTree :=
  match lookupA bf.platforms p with
  | some t => some t
  | none => L

/-- Effect of the render loop on one platform slot. -/
def renderAt (R : Renderers) (p : String) (L : Option PlatformTree) : Option PlatformTree :=
  match L with
  | none => none
  | some t => some (renderTree R p t)

/-- What one branch's platform map looks like after `mergeBranch`, as a
function of its previous platform map `L`. -/
def mergedTree (hasUtils : Bool) (R : Renderers) (bf : BranchFolder)
    (L : String → Option PlatformTree) (p : String) : Option PlatformTree :=
  if p ∈ PLATFORM_IDS then
    match lookupA bf.platforms p with
    | some t => some (if hasUtils then renderTree R p t else t)
    | none =>
        match L p with
        | some t => some (if hasUtils then renderTree R p t else t)
        | none => none
  else L p

/-- First branch folder with the given name. -/
def findBF (bs : List BranchFolder) (b : String) : Option BranchFolder :=
  bs.find? (fun bf => decide (bf.name = b))

/-! ## Theorems -/

theorem lookupA_cons {α : Type} (e : String × α) (l : List (String × α)) (k : String) :
    lookupA (e :: l) k = if e.1 = k then some e.2 else lookupA l k := rfl

/-- C3: the Status Reader's success field: explicit when present; derived
from summary when absent and total > 0; unknown otherwise. -/
theorem C3_legacy_success_derivation (d : ResultsDoc) :
    (∀ b, d.success = some b → deriveSuccess d = some b) ∧
    (∀ s t f, d.success = none → d.summary = some s → s.total = some t → 0 < t →
      s.failed = some f →
      ((deriveSuccess d = some true ↔ f = 0) ∧ (deriveSuccess d = some false ↔ ¬ f = 0))) ∧
    (d.success = none → d.summary = none → deriveSuccess d = none) ∧
    (∀ s, d.success = none → d.summary = some s → s.total.getD 0 ≤ 0 →
      deriveSuccess d = none) := by
  refine ⟨?_, ?_, ?_, ?_⟩
  · intro b hb
    simp [deriveSuccess, hb]
  · intro s t f h0 hs ht htpos hf
    constructor
    · simp [deriveSuccess, h0, hs, ht, hf, htpos]
    · simp [deriveSuccess, h0, hs, ht, hf, htpos]
  · intro h0 hs
    simp [deriveSuccess, h0, hs]
  · intro s h0 hs hle
    have : ¬ s.total.getD 0 > 0 := by omega
    simp [deriveSuccess, h0, hs, this]

theorem C3_legacy_success_derivation_witness :
    deriveSuccess ⟨none, some ⟨some 10, some 0⟩, none, none⟩ = some true ∧
    deriveSuccess ⟨none, some ⟨some 10, some 2⟩, none, none⟩ = some false ∧
    deriveSuccess ⟨none, none, none, none⟩ = none ∧
    deriveSuccess ⟨none, some ⟨some 0, none⟩, none, none⟩ = none := by
  refine ⟨?_, ?_, ?_, ?_⟩
  · exact ((C3_legacy_success_derivation ⟨none, some ⟨some 10, some 0⟩, none, none⟩).2.1
      ⟨some 10, some 0⟩ 10 0 rfl rfl rfl (by decide) rfl).1.mpr rfl
  · exact ((C3_legacy_success_derivation ⟨none, some ⟨some 10, some 2⟩, none, none⟩).2.1
      ⟨some 10, some 2⟩ 10 2 rfl rfl rfl (by decide) rfl).2.mpr (by decide)
  · exact (C3_legacy_success_derivation ⟨none, none, none, none⟩).2.2.1 rfl rfl
  · exact (C3_legacy_success_derivation ⟨none, some ⟨some 0, none⟩, none, none⟩).2.2.2
      ⟨some 0, none⟩ rfl rfl (by decide)

/-- C9: no explicit success, total > 0, and no failed field at all: the
missing failed count defaults to 1, so success is reported as false, not
unknown. -/
theorem C9_missing_failed_defaults_false (d : ResultsDoc) (s : Summary) (t : Int)
    (h0 : d.success = none) (hs : d.summary = some s) (ht : s.total = some t)
    (htpos : 0 < t) (hf : s.failed = none) : deriveSuccess d = some false := by
  simp [deriveSuccess, h0, hs, ht, hf, htpos]

theorem C9_missing_failed_defaults_false_witness :
    deriveSuccess ⟨none, some ⟨some 10, none⟩, none, none⟩ = some false :=
  C9_missing_failed_defaults_false ⟨none, some ⟨some 10, none⟩, none, none⟩
    ⟨some 10, none⟩ 10 rfl rfl rfl (by decide) rfl

/-- C10: a branch appears in the status mapping only with a non-empty
platform mapping; a branch whose reads all failed is omitted entirely. -/
theorem C10_branch_entries_nonempty (r : Remote) (b : String)
    (l : List (String × PlatformStatus)) :
    ((b, l) ∈ fetchGhPagesStatus r → ¬ l = []) ∧
    (branchStatus r b = [] → (b, l) ∉ fetchGhPagesStatus r) := by
  constructor
  · intro hmem
    rcases List.mem_filterMap.mp hmem with ⟨br, _, hbr⟩
    by_cases he : (branchStatus r br).isEmpty
    · simp [he] at hbr
    · simp [he] at hbr
      rcases hbr with ⟨hb, hl⟩
      subst hb
      intro hnil
      rw [hl, hnil] at he
      simp at he
  · intro hempty hmem
    rcases List.mem_filterMap.mp hmem with ⟨br, _, hbr⟩
    by_cases he : (branchStatus r br).isEmpty
    · simp [he] at hbr
    · simp [he] at hbr
      rcases hbr with ⟨hb, _⟩
      subst hb
      rw [hempty] at he
      simp at he

theorem C10_branch_entries_nonempty_witness :
    ¬ ([(("linux-gpu" : String),
        (⟨some true, "abc", "t1"⟩ : PlatformStatus))] = []) := by
  have hfetch : fetchGhPagesStatus
      ⟨fun b => if b = "dev" then some ["linux-gpu"] else none,
       fun b p => if b = "dev" ∧ p = "linux-gpu" then
          some ⟨some true, none, some "abc", some "t1"⟩ else none⟩ =
      [("dev", [("linux-gpu", ⟨some true, "abc", "t1"⟩)])] := by decide
  refine (C10_branch_entries_nonempty
    ⟨fun b => if b = "dev" then some ["linux-gpu"] else none,
     fun b p => if b = "dev" ∧ p = "linux-gpu" then
        some ⟨some true, none, some "abc", some "t1"⟩ else none⟩
    "dev" [("linux-gpu", ⟨some true, "abc", "t1"⟩)]).1 ?_
  rw [hfetch]
  exact List.mem_singleton.mpr rfl

/-- C4 counterexample: an unavailable local head and a genuinely stale
result render with the very same commit tag, so Unknown is not rendered
distinctly from Stale. -/
theorem C4_freshness_counterexample :
    classify "abc1234" "" = Freshness.unknown ∧
    classify "abc1234" "def4567" = Freshness.stale ∧
    commitTag "abc1234" "" = commitTag "abc1234" "def4567" := by
  refine ⟨by decide, by decide, by decide⟩

theorem dimTag_ne_yellowTag (s : String) :
    ¬ ("[dim]" ++ s ++ "[/dim]" = "[yellow]" ++ s ++ "[/yellow]") := by
  intro h
  have hlen := congrArg String.length h
  simp [String.length_append,
    show ("[dim]" : String).length = 5 from rfl,
    show ("[/dim]" : String).length = 6 from rfl,
    show ("[yellow]" : String).length = 8 from rfl,
    show ("[/yellow]" : String).length = 9 from rfl] at hlen
  omega

/-- C4 amended: the code's tag is a two-way rendering: dim short hash
exactly when the spec's classification is Fresh, yellow short hash for both
Stale and Unknown (with a "?" placeholder text only when the published hash
itself is empty). -/
theorem C4_freshness_amended (c h : String) :
    (classify c h = Freshness.fresh ↔
      commitTag c h = "[dim]" ++ shortHash c ++ "[/dim]") ∧
    (¬ classify c h = Freshness.fresh →
      commitTag c h = "[yellow]" ++ shortHash c ++ "[/yellow]") ∧
    (c = "" → shortHash c = "?") := by
  have hcond : classify c h = Freshness.fresh ↔ (¬ c = "" ∧ ¬ h = "" ∧ c = h) := by
    by_cases hc : c = "" <;> by_cases hh : h = "" <;> by_cases he : c = h <;>
      simp [classify, hc, hh, he]
  refine ⟨?_, ?_, ?_⟩
  · constructor
    · intro hf
      rw [commitTag, if_pos (hcond.mp hf)]
    · intro htag
      by_contra hnf
      rw [commitTag, if_neg (fun hx => hnf (hcond.mpr hx))] at htag
      exact dimTag_ne_yellowTag (shortHash c) htag.symm
  · intro hnf
    rw [commitTag, if_neg (fun hx => hnf (hcond.mpr hx))]
  · intro hc
    simp [shortHash, hc]

theorem lookupStatus_cons (e : String × List (String × PlatformStatus))
    (st : List (String × List (String × PlatformStatus))) (b p : String) :
    lookupStatus (e :: st) b p =
      if e.1 = b then lookupA e.2 p else lookupStatus st b p := by
  by_cases h : e.1 = b <;> simp [lookupStatus, lookupA_cons, h]

theorem bstat_cons_none (F : String → Option PlatformStatus) (pid : String)
    (rest : List String) (h : F pid = none) :
    (pid :: rest).filterMap (fun x => (F x).map (fun stv => (x, stv))) =
      rest.filterMap (fun x => (F x).map (fun stv => (x, stv))) := by
  rw [List.filterMap_cons, h]
  rfl

theorem bstat_cons_some (F : String → Option PlatformStatus) (pid : String)
    (rest : List String) (stv : PlatformStatus) (h : F pid = some stv) :
    (pid :: rest).filterMap (fun x => (F x).map (fun stv => (x, stv))) =
      (pid, stv) :: rest.filterMap (fun x => (F x).map (fun stv => (x, stv))) := by
  rw [List.filterMap_cons, h]
  rfl

theorem fetch_cons_none (G : String → List (String × PlatformStatus)) (br : String)
    (rest : List String) (h : G br = []) :
    (br :: rest).filterMap (fun x => if (G x).isEmpty then none else some (x, G x)) =
      rest.filterMap (fun x => if (G x).isEmpty then none else some (x, G x)) := by
  rw [List.filterMap_cons, h]
  rfl

theorem fetch_cons_some (G : String → List (String × PlatformStatus)) (br : String)
    (rest : List String) (h : ¬ G br = []) :
    (br :: rest).filterMap (fun x => if (G x).isEmpty then none else some (x, G x)) =
      (br, G br) :: rest.filterMap (fun x => if (G x).isEmpty then none else some (x, G x)) := by
  rw [List.filterMap_cons, if_neg (fun hx => h (List.isEmpty_iff.mp hx))]

theorem branchStatus_failOne_ne (r : Remote) (b0 p0 b : String) (hb : ¬ b = b0) :
    branchStatus (failOne r b0 p0) b = branchStatus r b := by
  have hread : ∀ pid, readPlatform (failOne r b0 p0) b pid = readPlatform r b pid := by
    intro pid
    simp [readPlatform, failOne, hb]
  rw [branchStatus, branchStatus,
    show platformDirs (failOne r b0 p0) b = platformDirs r b from rfl]
  simp only [hread]

theorem lookupA_branchStatus_failOne (r : Remote) (b0 p0 p : String) (hp : ¬ p = p0) :
    lookupA (branchStatus (failOne r b0 p0) b0) p = lookupA (branchStatus r b0) p := by
  rw [branchStatus, branchStatus,
    show platformDirs (failOne r b0 p0) b0 = platformDirs r b0 from rfl]
  induction platformDirs r b0 with
  | nil => rfl
  | cons pid rest ih =>
    by_cases hpid : pid = p0
    · have h1 : readPlatform (failOne r b0 p0) b0 pid = none := by
        simp [readPlatform, failOne, hpid]
      rw [bstat_cons_none _ _ _ h1]
      cases h3 : readPlatform r b0 pid with
      | none =>
        rw [bstat_cons_none _ _ _ h3]
        exact ih
      | some stv =>
        rw [bstat_cons_some _ _ _ _ h3, lookupA_cons]
        have hne : ¬ pid = p := fun hx => hp (hx.symm.trans hpid)
        rw [if_neg hne]
        exact ih
    · have h1 : readPlatform (failOne r b0 p0) b0 pid = readPlatform r b0 pid := by
        simp [readPlatform, failOne, hpid]
      cases h3 : readPlatform r b0 pid with
      | none =>
        rw [bstat_cons_none _ _ _ (h1.trans h3), bstat_cons_none _ _ _ h3]
        exact ih
      | some stv =>
        rw [bstat_cons_some _ _ _ _ (h1.trans h3), bstat_cons_some _ _ _ _ h3,
          lookupA_cons, lookupA_cons]
        by_cases hx : pid = p
        · rw [if_pos hx, if_pos hx]
        · rw [if_neg hx, if_neg hx]
          exact ih

theorem branchStatus_failOne_nil (r : Remote) (b0 p0 : String)
    (h : branchStatus r b0 = []) : branchStatus (failOne r b0 p0) b0 = [] := by
  rw [branchStatus, List.filterMap_eq_nil_iff]
  rw [branchStatus, List.filterMap_eq_nil_iff] at h
  intro pid hmem
  by_cases hpid : pid = p0
  · simp [readPlatform, failOne, hpid]
  · have h1 : readPlatform (failOne r b0 p0) b0 pid = readPlatform r b0 pid := by
      simp [readPlatform, failOne, hpid]
    rw [show platformDirs (failOne r b0 p0) b0 = platformDirs r b0 from rfl] at hmem
    rw [h1]
    exact h pid hmem

theorem lookupA_branchStatus_of_failOne_nil (r : Remote) (b0 p0 p : String)
    (hp : ¬ p = p0) (h0 : branchStatus (failOne r b0 p0) b0 = []) :
    lookupA (branchStatus r b0) p = none := by
  rw [branchStatus, List.filterMap_eq_nil_iff,
    show platformDirs (failOne r b0 p0) b0 = platformDirs r b0 from rfl] at h0
  rw [branchStatus]
  revert h0
  induction platformDirs r b0 with
  | nil => intro _; rfl
  | cons pid rest ih =>
    intro h0
    have hrest : ∀ x ∈ rest,
        (readPlatform (failOne r b0 p0) b0 x).map (fun stv => (x, stv)) = none :=
      fun x hx => h0 x (List.mem_cons_of_mem _ hx)
    have hhead := h0 pid (List.mem_cons_self _ _)
    cases h3 : readPlatform r b0 pid with
    | none =>
      rw [bstat_cons_none _ _ _ h3]
      exact ih hrest
    | some stv =>
      have hpid : pid = p0 := by
        by_contra hc
        have h1 : readPlatform (failOne r b0 p0) b0 pid = readPlatform r b0 pid := by
          simp [readPlatform, failOne, hc]
        rw [h1, h3] at hhead
        simp at hhead
      rw [bstat_cons_some _ _ _ _ h3, lookupA_cons]
      have hne : ¬ pid = p := fun hx => hp (hx.symm.trans hpid)
      rw [if_neg hne]
      exact ih hrest

theorem lookupStatus_filterMap_none (l : List String)
    (G : String → List (String × PlatformStatus)) (b p : String) (hb : G b = []) :
    lookupStatus (l.filterMap (fun x =>
      if (G x).isEmpty then none else some (x, G x))) b p = none := by
  induction l with
  | nil => rfl
  | cons br rest ih =>
    by_cases he : G br = []
    · rw [fetch_cons_none _ _ _ he]
      exact ih
    · rw [fetch_cons_some _ _ _ he, lookupStatus_cons]
      by_cases hbr : br = b
      · rw [hbr, hb] at he
        exact absurd rfl he
      · rw [if_neg hbr]
        exact ih

theorem statusIsolation_gen (l : List String) (r : Remote) (b0 p0 b p : String)
    (h : ¬ (b = b0 ∧ p = p0)) :
    lookupStatus (l.filterMap (fun br =>
        if (branchStatus (failOne r b0 p0) br).isEmpty then none
        else some (br, branchStatus (failOne r b0 p0) br))) b p =
      lookupStatus (l.filterMap (fun br =>
        if (branchStatus r br).isEmpty then none
        else some (br, branchStatus r br))) b p := by
  induction l with
  | nil => rfl
  | cons br rest ih =>
    by_cases hbr0 : br = b0
    · subst hbr0
      by_cases hbb : b = br
      · subst hbb
        have hp : ¬ p = p0 := fun hx => h ⟨rfl, hx⟩
        by_cases hLr : branchStatus r b = []
        · have hL' : branchStatus (failOne r b p0) b = [] :=
            branchStatus_failOne_nil r b p0 hLr
          rw [fetch_cons_none _ _ _ hL', fetch_cons_none _ _ _ hLr]
          exact ih
        · by_cases hL' : branchStatus (failOne r b p0) b = []
          · rw [fetch_cons_none _ _ _ hL', fetch_cons_some _ _ _ hLr,
              lookupStatus_cons, if_pos rfl,
              lookupA_branchStatus_of_failOne_nil r b p0 p hp hL']
            exact lookupStatus_filterMap_none rest (branchStatus (failOne r b p0)) b p hL'
          · rw [fetch_cons_some _ _ _ hL', fetch_cons_some _ _ _ hLr,
              lookupStatus_cons, lookupStatus_cons, if_pos rfl, if_pos rfl]
            exact lookupA_branchStatus_failOne r b p0 p hp
      · have hne : ¬ br = b := fun hx => hbb hx.symm
        by_cases hL' : branchStatus (failOne r br p0) br = []
        · rw [fetch_cons_none _ _ _ hL']
          by_cases hLr : branchStatus r br = []
          · rw [fetch_cons_none _ _ _ hLr]
            exact ih
          · rw [fetch_cons_some _ _ _ hLr, lookupStatus_cons, if_neg hne]
            exact ih
        · rw [fetch_cons_some _ _ _ hL', lookupStatus_cons, if_neg hne]
          by_cases hLr : branchStatus r br = []
          · rw [fetch_cons_none _ _ _ hLr]
            exact ih
          · rw [fetch_cons_some _ _ _ hLr, lookupStatus_cons, if_neg hne]
            exact ih
    · have heq : branchStatus (failOne r b0 p0) br = branchStatus r br :=
        branchStatus_failOne_ne r b0 p0 br hbr0
      by_cases hLr : branchStatus r br = []
      · rw [fetch_cons_none _ _ _ (heq.trans hLr), fetch_cons_none _ _ _ hLr]
        exact ih
      · rw [fetch_cons_some _ _ _ (fun hx => hLr (heq.symm.trans hx)),
          fetch_cons_some _ _ _ hLr, lookupStatus_cons, lookupStatus_cons, heq]
        by_cases hx : br = b
        · rw [if_pos hx, if_pos hx]
        · rw [if_neg hx, if_neg hx]
          exact ih

/-- C7 counterexample: the status command does not exit 0 in all cases —
with no repositories found it exits 1. -/
theorem C7_failure_isolation_counterexample :
    showTestStatusExit [] = 1 ∧ ¬ ((1 : Int) = 0) := by
  exact ⟨rfl, by decide⟩

/-- C7 amended: a failed remote read of one (branch, platform) results.json
affects no other entry of the aggregate result, and the status command
exits 0 whenever at least one repository is configured (with none it
exits 1, per the counterexample). -/
theorem C7_failure_isolation_amended :
    (∀ (r : Remote) (b0 p0 b p : String), ¬ (b = b0 ∧ p = p0) →
      lookupStatus (fetchGhPagesStatus (failOne r b0 p0)) b p =
        lookupStatus (fetchGhPagesStatus r) b p) ∧
    (∀ repos : List String, ¬ repos = [] → showTestStatusExit repos = 0) := by
  constructor
  · intro r b0 p0 b p h
    exact statusIsolation_gen BRANCHES r b0 p0 b p h
  · intro repos h
    cases repos with
    | nil => exact absurd rfl h
    | cons a l => simp [showTestStatusExit]

theorem C7_failure_isolation_amended_witness :
    lookupStatus (fetchGhPagesStatus
        (failOne ⟨fun _ => none, fun _ _ => none⟩ "dev" "windows-gpu")) "dev" "linux-gpu" =
      lookupStatus (fetchGhPagesStatus ⟨fun _ => none, fun _ _ => none⟩) "dev" "linux-gpu" ∧
    showTestStatusExit ["repoA"] = 0 :=
  ⟨C7_failure_isolation_amended.1 ⟨fun _ => none, fun _ _ => none⟩ "dev" "windows-gpu"
      "dev" "linux-gpu" (by decide),
   C7_failure_isolation_amended.2 ["repoA"] (by decide)⟩

theorem C4_freshness_amended_witness :
    commitTag "abc1234xyz" "abc1234xyz" = "[dim]" ++ shortHash "abc1234xyz" ++ "[/dim]" ∧
    commitTag "abc1234xyz" "def" = "[yellow]" ++ shortHash "abc1234xyz" ++ "[/yellow]" ∧
    shortHash "" = "?" :=
  ⟨(C4_freshness_amended "abc1234xyz" "abc1234xyz").1.mp (by decide),
   (C4_freshness_amended "abc1234xyz" "def").2.1 (by decide),
   (C4_freshness_amended "" "x").2.2 rfl⟩

theorem selectLatest_cons_none {a : Entry} {as : List Entry}
    (hs : selectLatest as = none) : selectLatest (a :: as) = some a := by
  rw [selectLatest, hs]

theorem selectLatest_cons_some {a m : Entry} {as : List Entry}
    (hs : selectLatest as = some m) :
    selectLatest (a :: as) = if m.mtime > a.mtime then some m else some a := by
  rw [selectLatest, hs]

theorem selectLatest_mem : ∀ {l : List Entry} {e : Entry}, selectLatest l = some e → e ∈ l := by
  intro l
  induction l with
  | nil => intro e h; simp [selectLatest] at h
  | cons a as ih =>
    intro e h
    cases hs : selectLatest as with
    | none =>
      rw [selectLatest_cons_none hs] at h
      cases h
      exact List.mem_cons_self _ _
    | some m =>
      rw [selectLatest_cons_some hs] at h
      by_cases hc : m.mtime > a.mtime
      · rw [if_pos hc] at h
        cases h
        exact List.mem_cons_of_mem _ (ih hs)
      · rw [if_neg hc] at h
        cases h
        exact List.mem_cons_self _ _

theorem selectLatest_eq_none : ∀ {l : List Entry}, selectLatest l = none → l = [] := by
  intro l h
  cases l with
  | nil => rfl
  | cons a as =>
    cases hs : selectLatest as with
    | none => rw [selectLatest_cons_none hs] at h; cases h
    | some m =>
      rw [selectLatest_cons_some hs] at h
      by_cases hc : m.mtime > a.mtime
      · rw [if_pos hc] at h; cases h
      · rw [if_neg hc] at h; cases h

theorem selectLatest_max : ∀ {l : List Entry} {e : Entry}, selectLatest l = some e →
    ∀ x ∈ l, x.mtime ≤ e.mtime := by
  intro l
  induction l with
  | nil => intro e h; simp [selectLatest] at h
  | cons a as ih =>
    intro e h x hx
    cases hs : selectLatest as with
    | none =>
      rw [selectLatest_cons_none hs] at h
      cases h
      have : as = [] := selectLatest_eq_none hs
      subst this
      rcases List.mem_singleton.mp hx with rfl
      exact Nat.le_refl _
    | some m =>
      rw [selectLatest_cons_some hs] at h
      rcases List.mem_cons.mp hx with rfl | hxs
      · by_cases hc : m.mtime > x.mtime
        · rw [if_pos hc] at h
          cases h
          exact Nat.le_of_lt hc
        · rw [if_neg hc] at h
          cases h
          exact Nat.le_refl _
      · have hxm := ih hs x hxs
        by_cases hc : m.mtime > a.mtime
        · rw [if_pos hc] at h
          cases h
          exact hxm
        · rw [if_neg hc] at h
          cases h
          exact Nat.le_trans hxm (Nat.le_of_not_lt hc)

/-- C8: the ResultSet locator: absent root yields not-found; with a
timestamp an exact match is required; without, the most-recently-modified
matching directory wins; no matching entry yields not-found. -/
theorem C8_locator_selection (entries : List Entry) (repo : String) :
    (∀ ts, findLatestLog false entries repo ts = none) ∧
    (∀ t : String,
      (∀ e, findLatestLog true entries repo (some t) = some e →
        e ∈ entries ∧ exactMatch repo t e = true) ∧
      ((∀ e ∈ entries, exactMatch repo t e = false) →
        findLatestLog true entries repo (some t) = none)) ∧
    ((∀ e, findLatestLog true entries repo none = some e →
        e ∈ entries ∧ repoMatches repo e = true ∧
        ∀ x ∈ entries, repoMatches repo x = true → x.mtime ≤ e.mtime) ∧
     ((∀ e ∈ entries, repoMatches repo e = false) →
        findLatestLog true entries repo none = none) ∧
     (∀ e ∈ entries, repoMatches repo e = true →
        ¬ findLatestLog true entries repo none = none)) := by
  refine ⟨fun ts => rfl, fun t => ⟨?_, ?_⟩, ?_, ?_, ?_⟩
  · intro e h
    rw [show findLatestLog true entries repo (some t) =
        entries.find? (exactMatch repo t) from rfl] at h
    exact ⟨List.mem_of_find?_eq_some h, List.find?_some h⟩
  · intro hall
    rw [show findLatestLog true entries repo (some t) =
        entries.find? (exactMatch repo t) from rfl]
    rw [List.find?_eq_none]
    intro x hx
    rw [hall x hx]
    exact Bool.false_ne_true
  · intro e h
    rw [show findLatestLog true entries repo none =
        selectLatest (entries.filter (repoMatches repo)) from rfl] at h
    have hmem := selectLatest_mem h
    rcases List.mem_filter.mp hmem with ⟨hin, hmatch⟩
    refine ⟨hin, hmatch, ?_⟩
    intro x hx hxm
    exact selectLatest_max h x (List.mem_filter.mpr ⟨hx, hxm⟩)
  · intro hall
    rw [show findLatestLog true entries repo none =
        selectLatest (entries.filter (repoMatches repo)) from rfl]
    have : entries.filter (repoMatches repo) = [] := by
      rw [List.filter_eq_nil_iff]
      intro x hx
      rw [hall x hx]
      exact Bool.false_ne_true
    rw [this]
    rfl
  · intro e he hm hnone
    rw [show findLatestLog true entries repo none =
        selectLatest (entries.filter (repoMatches repo)) from rfl] at hnone
    have : entries.filter (repoMatches repo) = [] := selectLatest_eq_none hnone
    have hmem : e ∈ entries.filter (repoMatches repo) := List.mem_filter.mpr ⟨he, hm⟩
    rw [this] at hmem
    cases hmem

theorem C8_locator_selection_witness :
    findLatestLog false
        [⟨"Comfy-Dev_CLI-1023", true, 5⟩] "ComfyDevCLI" none = none ∧
    ¬ findLatestLog true
        [⟨"Comfy-Dev_CLI-1023", true, 5⟩, ⟨"comfydevcli-0900", true, 9⟩,
         ⟨"other-1023", true, 99⟩] "ComfyDevCLI" none = none :=
  ⟨(C8_locator_selection [⟨"Comfy-Dev_CLI-1023", true, 5⟩] "ComfyDevCLI").1 none,
   (C8_locator_selection
      [⟨"Comfy-Dev_CLI-1023", true, 5⟩, ⟨"comfydevcli-0900", true, 9⟩,
       ⟨"other-1023", true, 99⟩] "ComfyDevCLI").2.2.2.2
     ⟨"comfydevcli-0900", true, 9⟩ (by simp) (by decide)⟩

/-! ### Store operation and merge characterization lemmas -/

theorem getPlat_setPlat (s : Store) (b p b' p' : String) (t : PlatformTree) :
    (s.setPlat b p t).getPlat b' p' =
      if b = b' ∧ p = p' then some t else s.getPlat b' p' := rfl

theorem getPlat_setBranchIdx (s : Store) (b i : String) (b' p' : String) :
    (s.setBranchIdx b i).getPlat b' p' = s.getPlat b' p' := rfl

theorem getBranchIdx_setBranchIdx (s : Store) (b i b' : String) :
    (s.setBranchIdx b i).getBranchIdx b' =
      if b = b' then some i else s.getBranchIdx b' := rfl

theorem copyAt_none (bf : BranchFolder) (L : Option PlatformTree) (p : String)
    (h : lookupA bf.platforms p = none) : copyAt bf L p = L := by
  rw [copyAt, h]

theorem copyAt_some (bf : BranchFolder) (L : Option PlatformTree) (p : String)
    (t : PlatformTree) (h : lookupA bf.platforms p = some t) : copyAt bf L p = some t := by
  rw [copyAt, h]

theorem renderAt_none (R : Renderers) (p : String) : renderAt R p none = none := rfl

theorem renderAt_some (R : Renderers) (p : String) (t : PlatformTree) :
    renderAt R p (some t) = some (renderTree R p t) := rfl

theorem renderTree_eq_none (R : Renderers) (pid : String) (t : PlatformTree)
    (hr : R.renderPlatform pid t.primary = none) : renderTree R pid t = t := by
  rw [renderTree, hr]

theorem renderTree_eq_some (R : Renderers) (pid : String) (t : PlatformTree) (i : String)
    (hr : R.renderPlatform pid t.primary = some i) :
    renderTree R pid t = ⟨t.primary, some i⟩ := by
  rw [renderTree, hr]

theorem renderTree_primary (R : Renderers) (pid : String) (t : PlatformTree) :
    (renderTree R pid t).primary = t.primary := by
  cases hr : R.renderPlatform pid t.primary with
  | none => rw [renderTree_eq_none R pid t hr]
  | some i => rw [renderTree_eq_some R pid t i hr]

theorem copyStep_eq_none (bf : BranchFolder) (s : Store) (pid : String)
    (h : lookupA bf.platforms pid = none) : copyStep bf s pid = s := by
  rw [copyStep, h]

theorem copyStep_eq_some (bf : BranchFolder) (s : Store) (pid : String) (t : PlatformTree)
    (h : lookupA bf.platforms pid = some t) : copyStep bf s pid = s.setPlat bf.name pid t := by
  rw [copyStep, h]

theorem renderStep_eq_skip (R : Renderers) (bname : String) (s : Store) (pid : String)
    (h : s.getPlat bname pid = none) : renderStep R bname s pid = s := by
  rw [renderStep, h]

theorem renderStep_eq_fail (R : Renderers) (bname : String) (s : Store) (pid : String)
    (t : PlatformTree) (h : s.getPlat bname pid = some t)
    (hr : R.renderPlatform pid t.primary = none) : renderStep R bname s pid = s := by
  rw [renderStep]
  split
  next heq => rfl
  next t2 heq =>
    rw [h] at heq
    injection heq with he
    subst he
    split
    next => rfl
    next i hr2 =>
      rw [hr] at hr2
      cases hr2

theorem renderStep_eq_write (R : Renderers) (bname : String) (s : Store) (pid : String)
    (t : PlatformTree) (i : String) (h : s.getPlat bname pid = some t)
    (hr : R.renderPlatform pid t.primary = some i) :
    renderStep R bname s pid = s.setPlat bname pid ⟨t.primary, some i⟩ := by
  rw [renderStep]
  split
  next heq =>
    rw [h] at heq
    cases heq
  next t2 heq =>
    rw [h] at heq
    injection heq with he
    subst he
    split
    next hr2 =>
      rw [hr] at hr2
      cases hr2
    next i2 hr2 =>
      rw [hr] at hr2
      injection hr2 with hi
      subst hi
      rfl

theorem copyStep_getPlat_other (bf : BranchFolder) (s : Store) (pid b p : String)
    (h : ¬ (bf.name = b ∧ pid = p)) :
    (copyStep bf s pid).getPlat b p = s.getPlat b p := by
  cases hlk : lookupA bf.platforms pid with
  | none => rw [copyStep_eq_none bf s pid hlk]
  | some t => rw [copyStep_eq_some bf s pid t hlk, getPlat_setPlat, if_neg h]

theorem copyStep_getPlat_self (bf : BranchFolder) (s : Store) (pid : String) :
    (copyStep bf s pid).getPlat bf.name pid = copyAt bf (s.getPlat bf.name pid) pid := by
  cases hlk : lookupA bf.platforms pid with
  | none => rw [copyStep_eq_none bf s pid hlk, copyAt_none bf _ pid hlk]
  | some t =>
    rw [copyStep_eq_some bf s pid t hlk, getPlat_setPlat, if_pos ⟨rfl, rfl⟩,
      copyAt_some bf _ pid t hlk]

theorem renderStep_getPlat_other (R : Renderers) (bname : String) (s : Store)
    (pid b p : String) (h : ¬ (bname = b ∧ pid = p)) :
    (renderStep R bname s pid).getPlat b p = s.getPlat b p := by
  cases hq : s.getPlat bname pid with
  | none => rw [renderStep_eq_skip R bname s pid hq]
  | some t =>
    cases hr : R.renderPlatform pid t.primary with
    | none => rw [renderStep_eq_fail R bname s pid t hq hr]
    | some i => rw [renderStep_eq_write R bname s pid t i hq hr, getPlat_setPlat, if_neg h]

theorem renderStep_getPlat_self (R : Renderers) (bname : String) (s : Store) (pid : String) :
    (renderStep R bname s pid).getPlat bname pid = renderAt R pid (s.getPlat bname pid) := by
  cases hq : s.getPlat bname pid with
  | none => rw [renderStep_eq_skip R bname s pid hq, hq, renderAt_none]
  | some t =>
    cases hr : R.renderPlatform pid t.primary with
    | none =>
      rw [renderStep_eq_fail R bname s pid t hq hr, hq, renderAt_some,
        renderTree_eq_none R pid t hr]
    | some i =>
      rw [renderStep_eq_write R bname s pid t i hq hr, getPlat_setPlat,
        if_pos ⟨rfl, rfl⟩, renderAt_some, renderTree_eq_some R pid t i hr]

theorem foldCopy_getPlat (bf : BranchFolder) :
    ∀ (ps : List String), ps.Nodup → ∀ (s : Store) (b p : String),
    (ps.foldl (copyStep bf) s).getPlat b p =
      if b = bf.name ∧ p ∈ ps then copyAt bf (s.getPlat b p) p
      else s.getPlat b p := by
  intro ps
  induction ps with
  | nil =>
    intro _ s b p
    simp
  | cons pid rest ih =>
    intro hnd s b p
    have hpid_not : pid ∉ rest := (List.nodup_cons.mp hnd).1
    have hrest : rest.Nodup := (List.nodup_cons.mp hnd).2
    rw [List.foldl_cons, ih hrest]
    by_cases hb : b = bf.name
    · by_cases hp1 : p = pid
      · rw [if_neg (fun hx => hpid_not (hp1 ▸ hx.2)),
          if_pos ⟨hb, by rw [hp1]; exact List.mem_cons_self _ _⟩, hb, hp1]
        exact copyStep_getPlat_self bf s pid
      · rw [copyStep_getPlat_other bf s pid b p (fun hx => hp1 hx.2.symm)]
        by_cases hp2 : p ∈ rest
        · rw [if_pos ⟨hb, hp2⟩, if_pos ⟨hb, List.mem_cons_of_mem _ hp2⟩]
        · rw [if_neg (fun hx => hp2 hx.2),
            if_neg (fun hx => (List.mem_cons.mp hx.2).elim (fun hy => hp1 hy) hp2)]
    · rw [copyStep_getPlat_other bf s pid b p (fun hx => hb hx.1.symm),
        if_neg (fun hx => hb hx.1), if_neg (fun hx => hb hx.1)]

theorem foldRender_getPlat (R : Renderers) (bname : String) :
    ∀ (ps : List String), ps.Nodup → ∀ (s : Store) (b p : String),
    (ps.foldl (renderStep R bname) s).getPlat b p =
      if b = bname ∧ p ∈ ps then renderAt R p (s.getPlat b p)
      else s.getPlat b p := by
  intro ps
  induction ps with
  | nil =>
    intro _ s b p
    simp
  | cons pid rest ih =>
    intro hnd s b p
    have hpid_not : pid ∉ rest := (List.nodup_cons.mp hnd).1
    have hrest : rest.Nodup := (List.nodup_cons.mp hnd).2
    rw [List.foldl_cons, ih hrest]
    by_cases hb : b = bname
    · by_cases hp1 : p = pid
      · rw [if_neg (fun hx => hpid_not (hp1 ▸ hx.2)),
          if_pos ⟨hb, by rw [hp1]; exact List.mem_cons_self _ _⟩, hb, hp1]
        exact renderStep_getPlat_self R bname s pid
      · rw [renderStep_getPlat_other R bname s pid b p (fun hx => hp1 hx.2.symm)]
        by_cases hp2 : p ∈ rest
        · rw [if_pos ⟨hb, hp2⟩, if_pos ⟨hb, List.mem_cons_of_mem _ hp2⟩]
        · rw [if_neg (fun hx => hp2 hx.2),
            if_neg (fun hx => (List.mem_cons.mp hx.2).elim (fun hy => hp1 hy) hp2)]
    · rw [renderStep_getPlat_other R bname s pid b p (fun hx => hb hx.1.symm),
        if_neg (fun hx => hb hx.1), if_neg (fun hx => hb hx.1)]

theorem PLATFORM_IDS_nodup : PLATFORM_IDS.Nodup := by decide

theorem getPlat_congr (s1 s2 : Store) (b p : String) (h : s1.plats = s2.plats) :
    s1.getPlat b p = s2.getPlat b p := by
  rw [Store.getPlat, Store.getPlat, h]

theorem getBranchIdx_congr (s1 s2 : Store) (b : String) (h : s1.branchIdx = s2.branchIdx) :
    s1.getBranchIdx b = s2.getBranchIdx b := by
  rw [Store.getBranchIdx, Store.getBranchIdx, h]

theorem getExtra_congr (s1 s2 : Store) (f : String) (h : s1.extra = s2.extra) :
    s1.getExtra f = s2.getExtra f := by
  rw [Store.getExtra, Store.getExtra, h]

theorem copyStep_frame (bf : BranchFolder) (s : Store) (pid : String) :
    (copyStep bf s pid).branchIdx = s.branchIdx ∧
    (copyStep bf s pid).rootIndex = s.rootIndex ∧
    (copyStep bf s pid).nojekyll = s.nojekyll ∧
    (copyStep bf s pid).extra = s.extra := by
  cases hlk : lookupA bf.platforms pid with
  | none => rw [copyStep_eq_none bf s pid hlk]; exact ⟨rfl, rfl, rfl, rfl⟩
  | some t => rw [copyStep_eq_some bf s pid t hlk]; exact ⟨rfl, rfl, rfl, rfl⟩

theorem renderStep_frame (R : Renderers) (bname : String) (s : Store) (pid : String) :
    (renderStep R bname s pid).branchIdx = s.branchIdx ∧
    (renderStep R bname s pid).rootIndex = s.rootIndex ∧
    (renderStep R bname s pid).nojekyll = s.nojekyll ∧
    (renderStep R bname s pid).extra = s.extra := by
  cases hq : s.getPlat bname pid with
  | none => rw [renderStep_eq_skip R bname s pid hq]; exact ⟨rfl, rfl, rfl, rfl⟩
  | some t =>
    cases hr : R.renderPlatform pid t.primary with
    | none => rw [renderStep_eq_fail R bname s pid t hq hr]; exact ⟨rfl, rfl, rfl, rfl⟩
    | some i =>
      rw [renderStep_eq_write R bname s pid t i hq hr]
      exact ⟨rfl, rfl, rfl, rfl⟩

theorem foldCopy_frame (bf : BranchFolder) :
    ∀ (ps : List String) (s : Store),
    (ps.foldl (copyStep bf) s).branchIdx = s.branchIdx ∧
    (ps.foldl (copyStep bf) s).rootIndex = s.rootIndex ∧
    (ps.foldl (copyStep bf) s).nojekyll = s.nojekyll ∧
    (ps.foldl (copyStep bf) s).extra = s.extra := by
  intro ps
  induction ps with
  | nil => intro s; exact ⟨rfl, rfl, rfl, rfl⟩
  | cons pid rest ih =>
    intro s
    rw [List.foldl_cons]
    rcases ih (copyStep bf s pid) with ⟨h1, h2, h3, h4⟩
    rcases copyStep_frame bf s pid with ⟨g1, g2, g3, g4⟩
    exact ⟨h1.trans g1, h2.trans g2, h3.trans g3, h4.trans g4⟩

theorem foldRender_frame (R : Renderers) (bname : String) :
    ∀ (ps : List String) (s : Store),
    (ps.foldl (renderStep R bname) s).branchIdx = s.branchIdx ∧
    (ps.foldl (renderStep R bname) s).rootIndex = s.rootIndex ∧
    (ps.foldl (renderStep R bname) s).nojekyll = s.nojekyll ∧
    (ps.foldl (renderStep R bname) s).extra = s.extra := by
  intro ps
  induction ps with
  | nil => intro s; exact ⟨rfl, rfl, rfl, rfl⟩
  | cons pid rest ih =>
    intro s
    rw [List.foldl_cons]
    rcases ih (renderStep R bname s pid) with ⟨h1, h2, h3, h4⟩
    rcases renderStep_frame R bname s pid with ⟨g1, g2, g3, g4⟩
    exact ⟨h1.trans g1, h2.trans g2, h3.trans g3, h4.trans g4⟩

theorem mergeBranch_eq_false (R : Renderers) (s : Store) (bf : BranchFolder) :
    mergeBranch false R s bf = PLATFORM_IDS.foldl (copyStep bf) s := rfl

theorem mergeBranch_eq_true (R : Renderers) (s : Store) (bf : BranchFolder) :
    mergeBranch true R s bf =
      (PLATFORM_IDS.foldl (renderStep R bf.name) (PLATFORM_IDS.foldl (copyStep bf) s)).setBranchIdx
        bf.name
        (R.renderBranchIndex (fun p =>
          (PLATFORM_IDS.foldl (renderStep R bf.name)
            (PLATFORM_IDS.foldl (copyStep bf) s)).getPlat bf.name p)) := rfl

theorem mergedTree_not_pid (hu : Bool) (R : Renderers) (bf : BranchFolder)
    (L : String → Option PlatformTree) (p : String) (hp : p ∉ PLATFORM_IDS) :
    mergedTree hu R bf L p = L p := by
  rw [mergedTree, if_neg hp]

theorem mergedTree_pub (hu : Bool) (R : Renderers) (bf : BranchFolder)
    (L : String → Option PlatformTree) (p : String) (t : PlatformTree)
    (hp : p ∈ PLATFORM_IDS) (hlk : lookupA bf.platforms p = some t) :
    mergedTree hu R bf L p = some (if hu then renderTree R p t else t) := by
  rw [mergedTree, if_pos hp]
  split
  next t2 hlk2 =>
    rw [hlk] at hlk2
    injection hlk2 with he
    subst he
    rfl
  next hlk2 =>
    rw [hlk] at hlk2
    cases hlk2

theorem mergedTree_old (hu : Bool) (R : Renderers) (bf : BranchFolder)
    (L : String → Option PlatformTree) (p : String) (t : PlatformTree)
    (hp : p ∈ PLATFORM_IDS) (hlk : lookupA bf.platforms p = none) (hL : L p = some t) :
    mergedTree hu R bf L p = some (if hu then renderTree R p t else t) := by
  rw [mergedTree, if_pos hp]
  split
  next t2 hlk2 =>
    rw [hlk] at hlk2
    cases hlk2
  next hlk2 =>
    split
    next t2 hL2 =>
      rw [hL] at hL2
      injection hL2 with he
      subst he
      rfl
    next hL2 =>
      rw [hL] at hL2
      cases hL2

theorem mergedTree_absent (hu : Bool) (R : Renderers) (bf : BranchFolder)
    (L : String → Option PlatformTree) (p : String)
    (hp : p ∈ PLATFORM_IDS) (hlk : lookupA bf.platforms p = none) (hL : L p = none) :
    mergedTree hu R bf L p = none := by
  rw [mergedTree, if_pos hp]
  split
  next t2 hlk2 =>
    rw [hlk] at hlk2
    cases hlk2
  next hlk2 =>
    split
    next t2 hL2 =>
      rw [hL] at hL2
      cases hL2
    next hL2 => rfl

theorem foldCopy_getPlat_mt (R : Renderers) (bf : BranchFolder) (s : Store) (p : String) :
    (PLATFORM_IDS.foldl (copyStep bf) s).getPlat bf.name p =
      mergedTree false R bf (fun q => s.getPlat bf.name q) p := by
  rw [foldCopy_getPlat bf PLATFORM_IDS PLATFORM_IDS_nodup]
  by_cases hp : p ∈ PLATFORM_IDS
  · rw [if_pos ⟨rfl, hp⟩]
    cases hlk : lookupA bf.platforms p with
    | some t =>
      rw [copyAt_some bf _ p t hlk, mergedTree_pub false R bf _ p t hp hlk,
        if_neg Bool.false_ne_true]
    | none =>
      rw [copyAt_none bf _ p hlk]
      cases hLp : s.getPlat bf.name p with
      | some t =>
        rw [mergedTree_old false R bf _ p t hp hlk hLp, if_neg Bool.false_ne_true]
      | none => rw [mergedTree_absent false R bf _ p hp hlk hLp]
  · rw [if_neg (fun hx => hp hx.2), mergedTree_not_pid false R bf _ p hp]

theorem foldBoth_getPlat_self (R : Renderers) (bf : BranchFolder) (s : Store) (p : String) :
    (PLATFORM_IDS.foldl (renderStep R bf.name)
      (PLATFORM_IDS.foldl (copyStep bf) s)).getPlat bf.name p =
      mergedTree true R bf (fun q => s.getPlat bf.name q) p := by
  rw [foldRender_getPlat R bf.name PLATFORM_IDS PLATFORM_IDS_nodup]
  by_cases hp : p ∈ PLATFORM_IDS
  · rw [if_pos ⟨rfl, hp⟩, foldCopy_getPlat bf PLATFORM_IDS PLATFORM_IDS_nodup,
      if_pos ⟨rfl, hp⟩]
    cases hlk : lookupA bf.platforms p with
    | some t =>
      rw [copyAt_some bf _ p t hlk, renderAt_some, mergedTree_pub true R bf _ p t hp hlk,
        if_pos rfl]
    | none =>
      rw [copyAt_none bf _ p hlk]
      cases hLp : s.getPlat bf.name p with
      | some t =>
        rw [renderAt_some, mergedTree_old true R bf _ p t hp hlk hLp, if_pos rfl]
      | none => rw [renderAt_none, mergedTree_absent true R bf _ p hp hlk hLp]
  · rw [if_neg (fun hx => hp hx.2), foldCopy_getPlat bf PLATFORM_IDS PLATFORM_IDS_nodup,
      if_neg (fun hx => hp hx.2), mergedTree_not_pid true R bf _ p hp]

theorem mergeBranch_getPlat (hu : Bool) (R : Renderers) (s : Store) (bf : BranchFolder)
    (b p : String) :
    (mergeBranch hu R s bf).getPlat b p =
      if b = bf.name then mergedTree hu R bf (fun q => s.getPlat bf.name q) p
      else s.getPlat b p := by
  by_cases hb : b = bf.name
  · rw [if_pos hb, hb]
    cases hu with
    | false =>
      rw [mergeBranch_eq_false]
      exact foldCopy_getPlat_mt R bf s p
    | true =>
      rw [mergeBranch_eq_true, getPlat_setBranchIdx]
      exact foldBoth_getPlat_self R bf s p
  · rw [if_neg hb]
    cases hu with
    | false =>
      rw [mergeBranch_eq_false, foldCopy_getPlat bf PLATFORM_IDS PLATFORM_IDS_nodup,
        if_neg (fun hx => hb hx.1)]
    | true =>
      rw [mergeBranch_eq_true, getPlat_setBranchIdx,
        foldRender_getPlat R bf.name PLATFORM_IDS PLATFORM_IDS_nodup,
        if_neg (fun hx => hb hx.1),
        foldCopy_getPlat bf PLATFORM_IDS PLATFORM_IDS_nodup,
        if_neg (fun hx => hb hx.1)]

theorem mergeBranch_getBranchIdx (hu : Bool) (R : Renderers) (s : Store) (bf : BranchFolder)
    (b : String) :
    (mergeBranch hu R s bf).getBranchIdx b =
      if hu = true ∧ bf.name = b then
        some (R.renderBranchIndex (mergedTree true R bf (fun q => s.getPlat bf.name q)))
      else s.getBranchIdx b := by
  cases hu with
  | false =>
    rw [mergeBranch_eq_false, if_neg (fun hx => Bool.false_ne_true hx.1)]
    exact getBranchIdx_congr _ s b (foldCopy_frame bf PLATFORM_IDS s).1
  | true =>
    rw [mergeBranch_eq_true, getBranchIdx_setBranchIdx]
    by_cases hb : bf.name = b
    · rw [if_pos hb, if_pos ⟨rfl, hb⟩]
      have hfun : (fun p => (PLATFORM_IDS.foldl (renderStep R bf.name)
            (PLATFORM_IDS.foldl (copyStep bf) s)).getPlat bf.name p) =
          mergedTree true R bf (fun q => s.getPlat bf.name q) := by
        funext p
        exact foldBoth_getPlat_self R bf s p
      rw [hfun]
    · rw [if_neg hb, if_neg (fun hx => hb hx.2)]
      exact (getBranchIdx_congr _ _ b
          (foldRender_frame R bf.name PLATFORM_IDS _).1).trans
        (getBranchIdx_congr _ s b (foldCopy_frame bf PLATFORM_IDS s).1)

theorem mergeBranch_frame (hu : Bool) (R : Renderers) (s : Store) (bf : BranchFolder) :
    (mergeBranch hu R s bf).rootIndex = s.rootIndex ∧
    (mergeBranch hu R s bf).nojekyll = s.nojekyll ∧
    (mergeBranch hu R s bf).extra = s.extra := by
  cases hu with
  | false =>
    rw [mergeBranch_eq_false]
    exact ⟨(foldCopy_frame bf PLATFORM_IDS s).2.1, (foldCopy_frame bf PLATFORM_IDS s).2.2.1,
      (foldCopy_frame bf PLATFORM_IDS s).2.2.2⟩
  | true =>
    rw [mergeBranch_eq_true]
    refine ⟨?_, ?_, ?_⟩
    · rw [show ∀ (x : Store) (b i : String), (Store.setBranchIdx x b i).rootIndex = x.rootIndex
          from fun x b i => rfl]
      exact ((foldRender_frame R bf.name PLATFORM_IDS
        (PLATFORM_IDS.foldl (copyStep bf) s)).2.1).trans (foldCopy_frame bf PLATFORM_IDS s).2.1
    · rw [show ∀ (x : Store) (b i : String), (Store.setBranchIdx x b i).nojekyll = x.nojekyll
          from fun x b i => rfl]
      exact ((foldRender_frame R bf.name PLATFORM_IDS
        (PLATFORM_IDS.foldl (copyStep bf) s)).2.2.1).trans
        (foldCopy_frame bf PLATFORM_IDS s).2.2.1
    · rw [show ∀ (x : Store) (b i : String), (Store.setBranchIdx x b i).extra = x.extra
          from fun x b i => rfl]
      exact ((foldRender_frame R bf.name PLATFORM_IDS
        (PLATFORM_IDS.foldl (copyStep bf) s)).2.2.2).trans
        (foldCopy_frame bf PLATFORM_IDS s).2.2.2

theorem findBF_not_mem (bs : List BranchFolder) (b : String)
    (h : b ∉ bs.map BranchFolder.name) : findBF bs b = none := by
  rw [findBF, List.find?_eq_none]
  intro bf hbf
  simp only [decide_eq_true_eq]
  intro he
  exact h (he ▸ List.mem_map_of_mem BranchFolder.name hbf)

theorem findBF_cons_pos (bf0 : BranchFolder) (rest : List BranchFolder) (b : String)
    (h : bf0.name = b) : findBF (bf0 :: rest) b = some bf0 := by
  rw [findBF, List.find?_cons_of_pos]
  exact decide_eq_true h

theorem findBF_cons_neg (bf0 : BranchFolder) (rest : List BranchFolder) (b : String)
    (h : ¬ bf0.name = b) : findBF (bf0 :: rest) b = findBF rest b := by
  rw [findBF, findBF, List.find?_cons_of_neg]
  simp only [decide_eq_true_eq]
  exact h

theorem findBF_mem (bs : List BranchFolder) (bf : BranchFolder) (hmem : bf ∈ bs)
    (hnd : (bs.map BranchFolder.name).Nodup) : findBF bs bf.name = some bf := by
  induction bs with
  | nil => cases hmem
  | cons bf0 rest ih =>
    by_cases h0 : bf0.name = bf.name
    · rw [findBF_cons_pos bf0 rest bf.name h0]
      cases List.mem_cons.mp hmem with
      | inl he => rw [he]
      | inr hr =>
        exfalso
        have hin : bf.name ∈ rest.map BranchFolder.name := List.mem_map_of_mem _ hr
        rw [← h0] at hin
        exact (List.nodup_cons.mp (by simpa using hnd)).1 hin
    · rw [findBF_cons_neg bf0 rest bf.name h0]
      cases List.mem_cons.mp hmem with
      | inl he =>
        exfalso
        exact h0 (by rw [he])
      | inr hr =>
        exact ih hr (List.nodup_cons.mp (by simpa using hnd)).2

theorem foldMerge_getPlat (hu : Bool) (R : Renderers) :
    ∀ (bs : List BranchFolder), (bs.map BranchFolder.name).Nodup →
    ∀ (s : Store) (b p : String),
    (∀ bf, findBF bs b = some bf →
      (bs.foldl (mergeBranch hu R) s).getPlat b p =
        mergedTree hu R bf (fun q => s.getPlat b q) p) ∧
    (findBF bs b = none →
      (bs.foldl (mergeBranch hu R) s).getPlat b p = s.getPlat b p) := by
  intro bs
  induction bs with
  | nil =>
    intro _ s b p
    constructor
    · intro bf hf
      cases hf
    · intro _
      rfl
  | cons bf0 rest ih =>
    intro hnd s b p
    have hnd' : (rest.map BranchFolder.name).Nodup :=
      (List.nodup_cons.mp (by simpa using hnd)).2
    have hnotin : bf0.name ∉ rest.map BranchFolder.name :=
      (List.nodup_cons.mp (by simpa using hnd)).1
    rw [List.foldl_cons]
    by_cases h0 : bf0.name = b
    · constructor
      · intro bf hf
        rw [findBF_cons_pos bf0 rest b h0] at hf
        injection hf with he
        subst he
        have hrest : findBF rest b = none :=
          findBF_not_mem rest b (h0 ▸ hnotin)
        rw [(ih hnd' (mergeBranch hu R s bf0) b p).2 hrest, mergeBranch_getPlat,
          if_pos h0.symm, h0]
      · intro hf
        rw [findBF_cons_pos bf0 rest b h0] at hf
        cases hf
    · have hfun : (fun q => (mergeBranch hu R s bf0).getPlat b q) =
          (fun q => s.getPlat b q) := by
        funext q
        rw [mergeBranch_getPlat, if_neg (fun hx => h0 hx.symm)]
      constructor
      · intro bf hf
        rw [findBF_cons_neg bf0 rest b h0] at hf
        rw [(ih hnd' (mergeBranch hu R s bf0) b p).1 bf hf, hfun]
      · intro hf
        rw [findBF_cons_neg bf0 rest b h0] at hf
        rw [(ih hnd' (mergeBranch hu R s bf0) b p).2 hf, mergeBranch_getPlat,
          if_neg (fun hx => h0 hx.symm)]

theorem foldMerge_getBranchIdx (hu : Bool) (R : Renderers) :
    ∀ (bs : List BranchFolder), (bs.map BranchFolder.name).Nodup →
    ∀ (s : Store) (b : String),
    (∀ bf, findBF bs b = some bf →
      (bs.foldl (mergeBranch hu R) s).getBranchIdx b =
        (if hu = true then
          some (R.renderBranchIndex (mergedTree true R bf (fun q => s.getPlat b q)))
        else s.getBranchIdx b)) ∧
    (findBF bs b = none →
      (bs.foldl (mergeBranch hu R) s).getBranchIdx b = s.getBranchIdx b) := by
  intro bs
  induction bs with
  | nil =>
    intro _ s b
    constructor
    · intro bf hf
      cases hf
    · intro _
      rfl
  | cons bf0 rest ih =>
    intro hnd s b
    have hnd' : (rest.map BranchFolder.name).Nodup :=
      (List.nodup_cons.mp (by simpa using hnd)).2
    have hnotin : bf0.name ∉ rest.map BranchFolder.name :=
      (List.nodup_cons.mp (by simpa using hnd)).1
    rw [List.foldl_cons]
    by_cases h0 : bf0.name = b
    · constructor
      · intro bf hf
        rw [findBF_cons_pos bf0 rest b h0] at hf
        injection hf with he
        subst he
        have hrest : findBF rest b = none :=
          findBF_not_mem rest b (h0 ▸ hnotin)
        rw [(ih hnd' (mergeBranch hu R s bf0) b).2 hrest, mergeBranch_getBranchIdx]
        cases hu with
        | false =>
          rw [if_neg (fun hx => Bool.false_ne_true hx.1),
            if_neg Bool.false_ne_true]
        | true =>
          rw [if_pos ⟨rfl, h0⟩, if_pos rfl, h0]
      · intro hf
        rw [findBF_cons_pos bf0 rest b h0] at hf
        cases hf
    · have hfun : (fun q => (mergeBranch hu R s bf0).getPlat b q) =
          (fun q => s.getPlat b q) := by
        funext q
        rw [mergeBranch_getPlat, if_neg (fun hx => h0 hx.symm)]
      have hidx : (mergeBranch hu R s bf0).getBranchIdx b = s.getBranchIdx b := by
        rw [mergeBranch_getBranchIdx, if_neg (fun hx => h0 hx.2)]
      constructor
      · intro bf hf
        rw [findBF_cons_neg bf0 rest b h0] at hf
        rw [(ih hnd' (mergeBranch hu R s bf0) b).1 bf hf, hfun, hidx]
      · intro hf
        rw [findBF_cons_neg bf0 rest b h0] at hf
        rw [(ih hnd' (mergeBranch hu R s bf0) b).2 hf, hidx]

theorem foldMerge_frame (hu : Bool) (R : Renderers) :
    ∀ (bs : List BranchFolder) (s : Store),
    (bs.foldl (mergeBranch hu R) s).rootIndex = s.rootIndex ∧
    (bs.foldl (mergeBranch hu R) s).nojekyll = s.nojekyll ∧
    (bs.foldl (mergeBranch hu R) s).extra = s.extra := by
  intro bs
  induction bs with
  | nil => intro s; exact ⟨rfl, rfl, rfl⟩
  | cons bf0 rest ih =>
    intro s
    rw [List.foldl_cons]
    rcases ih (mergeBranch hu R s bf0) with ⟨h1, h2, h3⟩
    rcases mergeBranch_frame hu R s bf0 with ⟨g1, g2, g3⟩
    exact ⟨h1.trans g1, h2.trans g2, h3.trans g3⟩

theorem publishMerge_getPlat (hu : Bool) (R : Renderers) (s : Store)
    (bs : List BranchFolder) (b p : String) :
    (publishMerge hu R s bs).getPlat b p = (bs.foldl (mergeBranch hu R) s).getPlat b p := by
  cases hu <;> rfl

theorem publishMerge_getBranchIdx (hu : Bool) (R : Renderers) (s : Store)
    (bs : List BranchFolder) (b : String) :
    (publishMerge hu R s bs).getBranchIdx b =
      (bs.foldl (mergeBranch hu R) s).getBranchIdx b := by
  cases hu <;> rfl

theorem publishMerge_getExtra (hu : Bool) (R : Renderers) (s : Store)
    (bs : List BranchFolder) (f : String) :
    (publishMerge hu R s bs).getExtra f = (bs.foldl (mergeBranch hu R) s).getExtra f := by
  cases hu <;> rfl

theorem publishMerge_nojekyll (hu : Bool) (R : Renderers) (s : Store)
    (bs : List BranchFolder) : (publishMerge hu R s bs).nojekyll = true := by
  cases hu <;> rfl

theorem publishMerge_rootIndex_false (R : Renderers) (s : Store) (bs : List BranchFolder) :
    (publishMerge false R s bs).rootIndex = (bs.foldl (mergeBranch false R) s).rootIndex := rfl

theorem publishMerge_rootIndex_true (R : Renderers) (s : Store) (bs : List BranchFolder) :
    (publishMerge true R s bs).rootIndex =
      some (R.renderRootIndex (fun b p =>
        (bs.foldl (mergeBranch true R) s).getPlat b p)) := rfl

theorem renderTree_idem (R : Renderers) (p : String) (t : PlatformTree) :
    renderTree R p (renderTree R p t) = renderTree R p t := by
  cases hr : R.renderPlatform p t.primary with
  | none =>
    rw [renderTree_eq_none R p t hr]
    rw [renderTree_eq_none R p t hr]
  | some i =>
    rw [renderTree_eq_some R p t i hr]
    rw [renderTree_eq_some R p ⟨t.primary, some i⟩ i hr]

theorem mergedTree_idem (hu : Bool) (R : Renderers) (bf : BranchFolder)
    (L : String → Option PlatformTree) (p : String) :
    mergedTree hu R bf (mergedTree hu R bf L) p = mergedTree hu R bf L p := by
  by_cases hp : p ∈ PLATFORM_IDS
  · cases hlk : lookupA bf.platforms p with
    | some t =>
      rw [mergedTree_pub hu R bf (mergedTree hu R bf L) p t hp hlk,
        mergedTree_pub hu R bf L p t hp hlk]
    | none =>
      cases hLp : L p with
      | some t =>
        have hin : mergedTree hu R bf L p = some (if hu then renderTree R p t else t) :=
          mergedTree_old hu R bf L p t hp hlk hLp
        rw [mergedTree_old hu R bf (mergedTree hu R bf L) p
            (if hu then renderTree R p t else t) hp hlk hin, hin]
        cases hu with
        | false => rfl
        | true =>
          show some (renderTree R p (renderTree R p t)) = some (renderTree R p t)
          rw [renderTree_idem R p t]
      | none =>
        have hin : mergedTree hu R bf L p = none :=
          mergedTree_absent hu R bf L p hp hlk hLp
        rw [mergedTree_absent hu R bf (mergedTree hu R bf L) p hp hlk hin, hin]
  · rw [mergedTree_not_pid hu R bf (mergedTree hu R bf L) p hp]

theorem foldMerge_getPlat_idem (hu : Bool) (R : Renderers) (bs : List BranchFolder)
    (hnd : (bs.map BranchFolder.name).Nodup) (s : Store) (b p : String) :
    (bs.foldl (mergeBranch hu R) (publishMerge hu R s bs)).getPlat b p =
      (publishMerge hu R s bs).getPlat b p := by
  cases hf : findBF bs b with
  | none => exact (foldMerge_getPlat hu R bs hnd _ b p).2 hf
  | some bf =>
    have hT : (fun q => (publishMerge hu R s bs).getPlat b q) =
        mergedTree hu R bf (fun q => s.getPlat b q) := by
      funext q
      rw [publishMerge_getPlat]
      exact (foldMerge_getPlat hu R bs hnd s b q).1 bf hf
    rw [(foldMerge_getPlat hu R bs hnd _ b p).1 bf hf, hT, mergedTree_idem,
      publishMerge_getPlat]
    exact ((foldMerge_getPlat hu R bs hnd s b p).1 bf hf).symm

theorem publishMerge_idem (hu : Bool) (R : Renderers) (s : Store) (bs : List BranchFolder)
    (hnd : (bs.map BranchFolder.name).Nodup) :
    StoreEquiv (publishMerge hu R (publishMerge hu R s bs) bs) (publishMerge hu R s bs) := by
  refine ⟨?_, ?_, ?_, ?_, ?_⟩
  · intro b p
    rw [publishMerge_getPlat]
    exact foldMerge_getPlat_idem hu R bs hnd s b p
  · intro b
    rw [publishMerge_getBranchIdx]
    cases hf : findBF bs b with
    | none =>
      rw [(foldMerge_getBranchIdx hu R bs hnd _ b).2 hf]
    | some bf =>
      rw [(foldMerge_getBranchIdx hu R bs hnd _ b).1 bf hf, publishMerge_getBranchIdx,
        (foldMerge_getBranchIdx hu R bs hnd s b).1 bf hf]
      cases hu with
      | false =>
        rw [if_neg Bool.false_ne_true, if_neg Bool.false_ne_true]
      | true =>
        rw [if_pos rfl, if_pos rfl]
        have hT : (fun q => (publishMerge true R s bs).getPlat b q) =
            mergedTree true R bf (fun q => s.getPlat b q) := by
          funext q
          rw [publishMerge_getPlat]
          exact (foldMerge_getPlat true R bs hnd s b q).1 bf hf
        rw [hT, show mergedTree true R bf (mergedTree true R bf (fun q => s.getPlat b q)) =
            mergedTree true R bf (fun q => s.getPlat b q) from
          funext (fun q => mergedTree_idem true R bf (fun q2 => s.getPlat b q2) q)]
  · cases hu with
    | false =>
      rw [publishMerge_rootIndex_false, publishMerge_rootIndex_false,
        (foldMerge_frame false R bs (publishMerge false R s bs)).1,
        publishMerge_rootIndex_false]
    | true =>
      rw [publishMerge_rootIndex_true, publishMerge_rootIndex_true]
      have hfun : (fun b p =>
          (bs.foldl (mergeBranch true R) (publishMerge true R s bs)).getPlat b p) =
          (fun b p => (bs.foldl (mergeBranch true R) s).getPlat b p) := by
        funext b p
        rw [foldMerge_getPlat_idem true R bs hnd s b p, publishMerge_getPlat]
      rw [hfun]
  · rw [publishMerge_nojekyll, publishMerge_nojekyll]
  · intro f
    rw [publishMerge_getExtra]
    exact (getExtra_congr _ _ f (foldMerge_frame hu R bs (publishMerge hu R s bs)).2.2).trans
      rfl

theorem storeEqb_of_equiv (s1 s2 : Store) (h : StoreEquiv s1 s2) : storeEqb s1 s2 = true := by
  rcases h with ⟨h1, h2, h3, h4, h5⟩
  rw [storeEqb]
  simp only [Bool.and_eq_true, List.all_eq_true, decide_eq_true_eq]
  refine ⟨⟨⟨⟨fun k _ => h1 k.1 k.2, fun b _ => h2 b⟩, h3⟩, h4⟩, fun f _ => h5 f⟩

/-- C1: publishing into an existing store replaces exactly the named
(branch, platform) subtrees — each recognized platform directory with a
results.json — and leaves every other platform subtree of the same branch
byte-for-byte unchanged apart from its regenerated index page, every other
branch (content and index) fully unchanged, and all other store files
unchanged; only index pages and the .nojekyll sentinel are regenerated. -/
theorem C1_nondestructive_merge (hu : Bool) (R : Renderers) (s0 : Store)
    (bs : List BranchFolder) (hnd : (bs.map BranchFolder.name).Nodup) :
    (∀ bf ∈ bs, ∀ p t, p ∈ PLATFORM_IDS → lookupA bf.platforms p = some t →
      ((publishMerge hu R s0 bs).getPlat bf.name p).map PlatformTree.primary =
        some t.primary) ∧
    (∀ bf ∈ bs, ∀ p, p ∈ PLATFORM_IDS → lookupA bf.platforms p = none →
      ((publishMerge hu R s0 bs).getPlat bf.name p).map PlatformTree.primary =
        (s0.getPlat bf.name p).map PlatformTree.primary) ∧
    (∀ bf ∈ bs, ∀ p, p ∉ PLATFORM_IDS →
      (publishMerge hu R s0 bs).getPlat bf.name p = s0.getPlat bf.name p) ∧
    (∀ b, b ∉ bs.map BranchFolder.name →
      (∀ p, (publishMerge hu R s0 bs).getPlat b p = s0.getPlat b p) ∧
      (publishMerge hu R s0 bs).getBranchIdx b = s0.getBranchIdx b) ∧
    (∀ f, (publishMerge hu R s0 bs).getExtra f = s0.getExtra f) := by
  refine ⟨?_, ?_, ?_, ?_, ?_⟩
  · intro bf hmem p t hp hlk
    rw [publishMerge_getPlat,
      (foldMerge_getPlat hu R bs hnd s0 bf.name p).1 bf (findBF_mem bs bf hmem hnd),
      mergedTree_pub hu R bf _ p t hp hlk]
    cases hu with
    | false => rfl
    | true =>
      show some (renderTree R p t).primary = some t.primary
      rw [renderTree_primary]
  · intro bf hmem p hp hlk
    rw [publishMerge_getPlat,
      (foldMerge_getPlat hu R bs hnd s0 bf.name p).1 bf (findBF_mem bs bf hmem hnd)]
    cases hLp : s0.getPlat bf.name p with
    | some t =>
      rw [mergedTree_old hu R bf _ p t hp hlk hLp]
      cases hu with
      | false => rfl
      | true =>
        show some (renderTree R p t).primary = some t.primary
        rw [renderTree_primary]
    | none => rw [mergedTree_absent hu R bf _ p hp hlk hLp]
  · intro bf hmem p hp
    rw [publishMerge_getPlat,
      (foldMerge_getPlat hu R bs hnd s0 bf.name p).1 bf (findBF_mem bs bf hmem hnd),
      mergedTree_not_pid hu R bf _ p hp]
  · intro b hb
    constructor
    · intro p
      rw [publishMerge_getPlat]
      exact (foldMerge_getPlat hu R bs hnd s0 b p).2 (findBF_not_mem bs b hb)
    · rw [publishMerge_getBranchIdx]
      exact (foldMerge_getBranchIdx hu R bs hnd s0 b).2 (findBF_not_mem bs b hb)
  · intro f
    rw [publishMerge_getExtra]
    exact getExtra_congr _ _ f (foldMerge_frame hu R bs s0).2.2

theorem C1_nondestructive_merge_witness :
    ((publishMerge true ⟨fun _ _ => some "IDX", fun _ => "BI", fun _ => "RI"⟩
        ⟨[(("dev", "windows-cpu"), ⟨"ci-results", some "old-idx"⟩),
          (("main", "linux-gpu"), ⟨"main-results", none⟩)],
         [("main", "main-idx")], some "root", true, [("CNAME", "x")]⟩
        [⟨"dev", [("linux-gpu", ⟨"new-results", none⟩)]⟩]).getPlat "dev" "linux-gpu").map
      PlatformTree.primary = some "new-results" ∧
    ((publishMerge true ⟨fun _ _ => some "IDX", fun _ => "BI", fun _ => "RI"⟩
        ⟨[(("dev", "windows-cpu"), ⟨"ci-results", some "old-idx"⟩),
          (("main", "linux-gpu"), ⟨"main-results", none⟩)],
         [("main", "main-idx")], some "root", true, [("CNAME", "x")]⟩
        [⟨"dev", [("linux-gpu", ⟨"new-results", none⟩)]⟩]).getPlat "dev" "windows-cpu").map
      PlatformTree.primary = some "ci-results" ∧
    (publishMerge true ⟨fun _ _ => some "IDX", fun _ => "BI", fun _ => "RI"⟩
        ⟨[(("dev", "windows-cpu"), ⟨"ci-results", some "old-idx"⟩),
          (("main", "linux-gpu"), ⟨"main-results", none⟩)],
         [("main", "main-idx")], some "root", true, [("CNAME", "x")]⟩
        [⟨"dev", [("linux-gpu", ⟨"new-results", none⟩)]⟩]).getPlat "main" "linux-gpu" =
      some ⟨"main-results", none⟩ := by
  have h := C1_nondestructive_merge true
    ⟨fun _ _ => some "IDX", fun _ => "BI", fun _ => "RI"⟩
    ⟨[(("dev", "windows-cpu"), ⟨"ci-results", some "old-idx"⟩),
      (("main", "linux-gpu"), ⟨"main-results", none⟩)],
     [("main", "main-idx")], some "root", true, [("CNAME", "x")]⟩
    [⟨"dev", [("linux-gpu", ⟨"new-results", none⟩)]⟩] (by decide)
  refine ⟨?_, ?_, ?_⟩
  · exact h.1 ⟨"dev", [("linux-gpu", ⟨"new-results", none⟩)]⟩ (by simp)
      "linux-gpu" ⟨"new-results", none⟩ (by decide) (by decide)
  · exact (h.2.1 ⟨"dev", [("linux-gpu", ⟨"new-results", none⟩)]⟩ (by simp)
      "windows-cpu" (by decide) (by decide)).trans (by decide)
  · exact ((h.2.2.2.1 "main" (by decide)).1 "linux-gpu").trans (by decide)

theorem stagedClean_some (env : PubEnv) (s0 : Store) (h : env.remoteStore = some s0) :
    stagedClean env = storeEqb (mergedStore env) s0 := by
  rw [stagedClean, h]

theorem stagedClean_none (env : PubEnv) (h : env.remoteStore = none) :
    stagedClean env = false := by
  rw [stagedClean, h]

theorem initialWorktree_some (env : PubEnv) (s0 : Store) (h : env.remoteStore = some s0) :
    initialWorktree env = s0 := by
  rw [initialWorktree, h]

theorem pww_noChanges (env : PubEnv) (push : Bool) (hwk : env.worktreeOk = true)
    (hsc : stagedClean env = true) :
    publishWithWorktreeM env push =
      (POutcome.noChanges, [PubEvent.fetch, PubEvent.worktreeAdd], initialWorktree env) := by
  simp [publishWithWorktreeM, hwk, hsc]

theorem pww_published (env : PubEnv) (hwk : env.worktreeOk = true)
    (hsc : stagedClean env = false) (hp : env.pushOk = true) :
    publishWithWorktreeM env true =
      (POutcome.published,
       [PubEvent.fetch, PubEvent.worktreeAdd, PubEvent.commit, PubEvent.pushRemote],
       mergedStore env) := by
  simp [publishWithWorktreeM, hwk, hsc, hp]

/-- C2: a second publish of the same ResultSet against the remote produced
by the first publish finds an empty staged diff, reports NoChanges (no
commit or push event), and leaves the store content exactly as after the
first call. -/
theorem C2_publish_idempotent (env : PubEnv) (push2 : Bool)
    (hwk : env.worktreeOk = true) (hpush : env.pushOk = true)
    (hnd : (env.branches.map BranchFolder.name).Nodup) :
    stagedClean { env with remoteStore := some (publishWithWorktreeM env true).2.2 } = true ∧
    publishWithWorktreeM
        { env with remoteStore := some (publishWithWorktreeM env true).2.2 } push2 =
      (POutcome.noChanges, [PubEvent.fetch, PubEvent.worktreeAdd],
        (publishWithWorktreeM env true).2.2) := by
  have hclean : stagedClean
      { env with remoteStore := some (publishWithWorktreeM env true).2.2 } = true := by
    cases hsc : stagedClean env with
    | true =>
      rw [pww_noChanges env true hwk hsc]
      show stagedClean { env with remoteStore := some (initialWorktree env) } = true
      rw [stagedClean_some _ _ rfl]
      show storeEqb (mergedStore env) (initialWorktree env) = true
      cases hrem : env.remoteStore with
      | none =>
        rw [stagedClean_none env hrem] at hsc
        cases hsc
      | some s0 =>
        rw [initialWorktree_some env s0 hrem]
        rw [stagedClean_some env s0 hrem] at hsc
        exact hsc
    | false =>
      rw [pww_published env hwk hsc hpush]
      show stagedClean { env with remoteStore := some (mergedStore env) } = true
      rw [stagedClean_some _ _ rfl]
      show storeEqb (publishMerge env.hasUtils env.renders (mergedStore env) env.branches)
        (mergedStore env) = true
      exact storeEqb_of_equiv _ _
        (publishMerge_idem env.hasUtils env.renders (initialWorktree env) env.branches hnd)
  have hwk2 : ({ env with remoteStore := some (publishWithWorktreeM env true).2.2 } :
      PubEnv).worktreeOk = true := hwk
  refine ⟨hclean, ?_⟩
  rw [pww_noChanges _ push2 hwk2 hclean, initialWorktree_some _ _ rfl]

theorem C2_publish_idempotent_witness :
    publishWithWorktreeM
        { repoFound := true, dirtyPaths := [], logFound := true,
          branches := [⟨"dev", [("linux-gpu", ⟨"r1", none⟩)]⟩],
          remoteStore := some (publishWithWorktreeM
            { repoFound := true, dirtyPaths := [], logFound := true,
              branches := [⟨"dev", [("linux-gpu", ⟨"r1", none⟩)]⟩],
              remoteStore := some ⟨[], [], none, false, []⟩, defaultFiles := [],
              hasUtils := false, renders := ⟨fun _ _ => none, fun _ => "", fun _ => ""⟩,
              worktreeOk := true, pushOk := true } true).2.2,
          defaultFiles := [],
          hasUtils := false, renders := ⟨fun _ _ => none, fun _ => "", fun _ => ""⟩,
          worktreeOk := true, pushOk := true } true =
      (POutcome.noChanges, [PubEvent.fetch, PubEvent.worktreeAdd],
        (publishWithWorktreeM
          { repoFound := true, dirtyPaths := [], logFound := true,
            branches := [⟨"dev", [("linux-gpu", ⟨"r1", none⟩)]⟩],
            remoteStore := some ⟨[], [], none, false, []⟩, defaultFiles := [],
            hasUtils := false, renders := ⟨fun _ _ => none, fun _ => "", fun _ => ""⟩,
            worktreeOk := true, pushOk := true } true).2.2) :=
  (C2_publish_idempotent
    { repoFound := true, dirtyPaths := [], logFound := true,
      branches := [⟨"dev", [("linux-gpu", ⟨"r1", none⟩)]⟩],
      remoteStore := some ⟨[], [], none, false, []⟩, defaultFiles := [],
      hasUtils := false, renders := ⟨fun _ _ => none, fun _ => "", fun _ => ""⟩,
      worktreeOk := true, pushOk := true } true rfl rfl (by decide)).2

theorem pww_dirty_independent (env : PubEnv) (push : Bool) :
    publishWithWorktreeM { env with dirtyPaths := [] } push =
      publishWithWorktreeM env push := rfl

/-- C6: with at least one uncommitted change and force unset, publish
fails with the dirty-working-tree error carrying the offending paths,
producing no side effect at all (no fetch, no worktree, no commit, no
push), and exits 1; with force set, the outcome is independent of the
dirty paths, so the guard is skipped. -/
theorem C6_dirty_guard (env : PubEnv) (push : Bool) (hrepo : env.repoFound = true)
    (hdirty : ¬ env.dirtyPaths = []) :
    publishResultsM env false push = (POutcome.errDirty env.dirtyPaths, []) ∧
    exitCodeM (publishResultsM env false push).1 = 1 ∧
    publishResultsM env true push = publishResultsM { env with dirtyPaths := [] } true push := by
  have h1 : publishResultsM env false push = (POutcome.errDirty env.dirtyPaths, []) := by
    simp [publishResultsM, hrepo, hdirty]
  refine ⟨h1, ?_, ?_⟩
  · rw [h1]
    rfl
  · simp only [publishResultsM, hrepo]
    simp
    rfl

theorem C6_dirty_guard_witness :
    publishResultsM
        { repoFound := true, dirtyPaths := ["M file.py"], logFound := false, branches := [],
          remoteStore := none, defaultFiles := [], hasUtils := false,
          renders := ⟨fun _ _ => none, fun _ => "", fun _ => ""⟩,
          worktreeOk := true, pushOk := true } false true =
      (POutcome.errDirty ["M file.py"], []) ∧
    exitCodeM (publishResultsM
        { repoFound := true, dirtyPaths := ["M file.py"], logFound := false, branches := [],
          remoteStore := none, defaultFiles := [], hasUtils := false,
          renders := ⟨fun _ _ => none, fun _ => "", fun _ => ""⟩,
          worktreeOk := true, pushOk := true } false true).1 = 1 :=
  ⟨(C6_dirty_guard
      { repoFound := true, dirtyPaths := ["M file.py"], logFound := false, branches := [],
        remoteStore := none, defaultFiles := [], hasUtils := false,
        renders := ⟨fun _ _ => none, fun _ => "", fun _ => ""⟩,
        worktreeOk := true, pushOk := true } true rfl (by decide)).1,
   (C6_dirty_guard
      { repoFound := true, dirtyPaths := ["M file.py"], logFound := false, branches := [],
        remoteStore := none, defaultFiles := [], hasUtils := false,
        renders := ⟨fun _ _ => none, fun _ => "", fun _ => ""⟩,
        worktreeOk := true, pushOk := true } true rfl (by decide)).2.1⟩

/-- C5 (code bug): publishing to a repository whose remote has no pages
branch creates the orphan gh-pages branch, but its first commit does not
contain only the published subtrees: the default branch's files,
materialized by `git worktree add --detach` and merely unstaged by
`git rm -rf --cached .`, are re-staged by `git add -A` and end up in the
commit (here README.md next to the published dev/linux-gpu subtree). -/
theorem C5_orphan_bootstrap_inherits_files :
    (publishWithWorktreeM
        { repoFound := true, dirtyPaths := [], logFound := true,
          branches := [⟨"dev", [("linux-gpu", ⟨"results-v1", none⟩)]⟩],
          remoteStore := none, defaultFiles := [("README.md", "inherited")],
          hasUtils := false, renders := ⟨fun _ _ => none, fun _ => "", fun _ => ""⟩,
          worktreeOk := true, pushOk := true } true).1 = POutcome.published ∧
    ((publishWithWorktreeM
        { repoFound := true, dirtyPaths := [], logFound := true,
          branches := [⟨"dev", [("linux-gpu", ⟨"results-v1", none⟩)]⟩],
          remoteStore := none, defaultFiles := [("README.md", "inherited")],
          hasUtils := false, renders := ⟨fun _ _ => none, fun _ => "", fun _ => ""⟩,
          worktreeOk := true, pushOk := true } true).2.2).getPlat "dev" "linux-gpu" =
      some ⟨"results-v1", none⟩ ∧
    ((publishWithWorktreeM
        { repoFound := true, dirtyPaths := [], logFound := true,
          branches := [⟨"dev", [("linux-gpu", ⟨"results-v1", none⟩)]⟩],
          remoteStore := none, defaultFiles := [("README.md", "inherited")],
          hasUtils := false, renders := ⟨fun _ _ => none, fun _ => "", fun _ => ""⟩,
          worktreeOk := true, pushOk := true } true).2.2).getExtra "README.md" =
      some "inherited" := by
  refine ⟨by decide, by decide, by decide⟩

end ComfyDev
